import Mathlib

/-!
# Connection lifecycle of the node editor (src/Connection.cpp)

A shallow embedding of `Connection`: the two endpoint positions, the two
endpoint addresses, the dragging end and the `itemMoved` signal connections,
with every member function of `Connection.cpp` that reads or writes them.

Conventions of the embedding:

* coordinates (`qreal`) are finite values, kept as rationals; the arithmetic
  on them is exact in `Connection.mousePressEvent` and
  `Connection.mouseMoveEvent`, and a parameter (exact, or IEEE 754 binary64
  with its rounding) in `Connection.mousePressEventIn` and
  `Connection.mouseMoveEventIn`;
* the parts of Qt and of the sibling classes `Node` and `FlowScene` that the
  member functions call are gathered in `Context` and taken as parameters;
* `Q_ASSERT` is an explicit outcome (`Outcome.asserted`);
* pointer capture (`grabMouse`, `ungrabMouse`), stacking order, redraw
  requests and the drop shadow are toolkit effects that no member function
  reads back; they are not part of the state. The members `_id`,
  `_animationPhase` and `_lineWidth` are written once by the constructor and
  take no part in the operations below.
-/

namespace NodeEditor

/-! ## Data model -/

/-- The enumeration `EndType` naming an end of a connection. -/
inductive EndType where
  | SOURCE
  | SINK
  | NONE
  deriving DecidableEq, Repr

/-- A `QUuid` as its 128-bit value; the value zero is the null identifier. -/
structure QUuid where
  data : Nat
  deriving DecidableEq, Repr

/-- The default-constructed `QUuid()`. -/
def QUuid.null : QUuid := ⟨0⟩

/-- The test `QUuid::isNull`. -/
def QUuid.isNull (u : QUuid) : Bool := u.data == 0

/-- A `QPointF` with finite coordinates, kept as rationals. -/
structure QPointF where
  x : ℚ
  y : ℚ
  deriving DecidableEq, Repr

/-- The default-constructed `QPointF()`. -/
def QPointF.origin : QPointF := ⟨0, 0⟩

instance : Add QPointF := ⟨fun a b => ⟨a.x + b.x, a.y + b.y⟩⟩

instance : Sub QPointF := ⟨fun a b => ⟨a.x - b.x, a.y - b.y⟩⟩

/-- The static `QPointF::dotProduct`. -/
def QPointF.dotProduct (a b : QPointF) : ℚ := a.x * b.x + a.y * b.y

/-- An endpoint address `std::pair<QUuid, int>`: node identifier and port index. -/
abbrev Address := QUuid × Int

/-- A value-constructed `std::pair<QUuid, int>`: the state of the members
`_sourceAddress` and `_sinkAddress` before the constructor body runs. -/
def Address.default : Address := (QUuid.null, 0)

/-- An endpoint is bound when the node identifier of its address is not null
(the test `!address.first.isNull()` of `onItemMoved`). -/
def Address.bound (a : Address) : Bool := !a.1.isNull

/-- A `Node` of the scene, known to a connection by its identifier only. -/
structure Node where
  id : QUuid
  deriving DecidableEq, Repr

/-- An item of the scene: a `Node`, or an item of another class (a connection,
a decoration) carrying a tag that tells such items apart. -/
inductive QGraphicsItem where
  | node (n : Node)
  | other (tag : Nat)
  deriving DecidableEq, Repr

/-- The cast `dynamic_cast<Node*>(item)`; `none` is the null pointer. -/
def QGraphicsItem.dynamicCastNode : QGraphicsItem → Option Node
  | .node n => some n
  | .other _ => none

/-- The fields of a `QGraphicsSceneMouseEvent` that the handlers use. -/
structure QGraphicsSceneMouseEvent where
  pos : QPointF
  lastPos : QPointF
  accepted : Bool
  deriving DecidableEq, Repr

/-- The state of a `Connection`. `itemMoved` lists the nodes whose `itemMoved`
signal is connected to `Connection::onItemMoved`, most recent first. -/
@[ext]
structure Connection where
  _source : QPointF
  _sink : QPointF
  _sourceAddress : Address
  _sinkAddress : Address
  _dragging : EndType
  itemMoved : List QUuid
  deriving DecidableEq, Repr

/-- The member `_pointDiameter`, set to 10 by the constructor and never written again. -/
def _pointDiameter : ℚ := 10

/-- What the member functions call outside `Connection.cpp`. -/
structure Context where
  /-- The call `FlowScene::instance().getNode(id)->connectionPointScenePosition(port, end)`. -/
  connectionPointScenePosition : QUuid → Int → EndType → QPointF
  /-- The item's `mapFromScene`. -/
  mapFromScene : QPointF → QPointF
  /-- The item's `mapToScene`. -/
  mapToScene : QPointF → QPointF
  /-- The query `scene.items(scenePoint, Qt::IntersectsItemShape, Qt::DescendingOrder, transform)`,
  topmost item first. -/
  items : QPointF → List QGraphicsItem
  /-- Modelled from the spec: `Node::tryConnect` is declared in `Node.hpp`, which is
  not part of the sources. The node is asked to bind the dragged end and may
  reject (`none`) or accept, and then calls `connectToNode` with an address. -/
  tryConnect : Node → Connection → Option Address

/-- The anchor of a port in the coordinates of the connection: the node's scene
position of the connection point, mapped from the scene. -/
def Context.anchor (ctx : Context) (address : Address) (endType : EndType) : QPointF :=
  ctx.mapFromScene (ctx.connectionPointScenePosition address.1 address.2 endType)

/-- The outcome of a member function guarded by `Q_ASSERT`: it returns, or the
assertion trips and the run stops with the object in the state given. -/
inductive Outcome (α : Type) where
  | returned (a : α)
  | asserted (c : Connection)
  deriving DecidableEq, Repr

/-- The endpoint position `_source` or `_sink` of an end (the `switch` of
`endPointSceneCoordinate`, before mapping to the scene). -/
def Connection.endPoint (c : Connection) : EndType → QPointF
  | .SOURCE => c._source
  | .SINK => c._sink
  | .NONE => QPointF.origin

/-- The address member of an end; a value-constructed pair for `NONE`. -/
def Connection.address (c : Connection) : EndType → Address
  | .SOURCE => c._sourceAddress
  | .SINK => c._sinkAddress
  | .NONE => Address.default

/-- The other end of a connection. -/
def EndType.opposite : EndType → EndType
  | .SOURCE => .SINK
  | .SINK => .SOURCE
  | .NONE => .NONE

/-! ## Member functions -/

/-- The constructor `Connection::Connection(address, dragging)`. The members
`_source` and `_sink` start at `(10, 10)` and `(100, 100)` and both addresses
value-constructed; the signal `itemMoved` of the origin node is connected; the
`switch` stores the origin at the end that is not dragged and computes
`pointPos`, which stays a default `QPointF()` in the `default:` branch. The call
`item->connectionPointScenePosition(address, end)` on the node looked up by
`address.first` is the lookup of the port `address.second` of that node. -/
def Connection.construct (ctx : Context) (address : Address) (dragging : EndType) : Connection :=
  let c0 : Connection :=
    { _source := ⟨10, 10⟩
      _sink := ⟨100, 100⟩
      _sourceAddress := Address.default
      _sinkAddress := Address.default
      _dragging := dragging
      itemMoved := [address.1] }
  let r : Connection × QPointF :=
    match c0._dragging with
    | .SOURCE => ({ c0 with _sinkAddress := address }, ctx.anchor address .SINK)
    | .SINK => ({ c0 with _sourceAddress := address }, ctx.anchor address .SOURCE)
    | .NONE => (c0, QPointF.origin)
  { r.1 with _source := r.2, _sink := r.2 }

/-- The member function `Connection::setDragging`. -/
def Connection.setDragging (c : Connection) (dragging : EndType) : Connection :=
  let c1 := { c with _dragging := dragging }
  match c1._dragging with
  | .SOURCE => { c1 with _sourceAddress := (QUuid.null, -1) }
  | .SINK => { c1 with _sinkAddress := (QUuid.null, -1) }
  | .NONE => c1

/-- The member function `Connection::connectToNode`; the node is looked up by
`address.first` and the port is read back from the address just stored. -/
def Connection.connectToNode (ctx : Context) (c : Connection) (address : Address) :
    Outcome Connection :=
  if c._dragging = .NONE then .asserted c
  else
    let c1 : Connection :=
      match c._dragging with
      | .SOURCE =>
        let c' := { c with _sourceAddress := address }
        let scenePos := ctx.connectionPointScenePosition address.1 c'._sourceAddress.2 .SOURCE
        { c' with _source := ctx.mapFromScene scenePos }
      | .SINK =>
        let c' := { c with _sinkAddress := address }
        let scenePos := ctx.connectionPointScenePosition address.1 c'._sinkAddress.2 .SINK
        { c' with _sink := ctx.mapFromScene scenePos }
      | .NONE => c
    .returned { c1 with _dragging := .NONE }

/-- The test `distance(d) < tolerance` of `mousePressEvent`, where `distance(d)`
is `sqrt(dotProduct(d, d))`. A square root is below `t` exactly when `t` is
positive and the radicand is below `t * t` (see `distanceLt_iff_sqrt`), and this
form is decidable over the rationals. -/
def distanceLt (d : QPointF) (tolerance : ℚ) : Bool :=
  decide (0 < tolerance ∧ QPointF.dotProduct d d < tolerance * tolerance)

/-- The pointer at `p` is within the grab tolerance of the point `q`: the
Euclidean distance between them, a real square root, is below
`2 * _pointDiameter`. This is the geometric reading of the test; `distanceLt` is
its decision procedure. -/
def withinTolerance (p q : QPointF) : Prop :=
  Real.sqrt ((QPointF.dotProduct (p - q) (p - q) : ℚ) : ℝ) < ((2 * _pointDiameter : ℚ) : ℝ)

/-- The pointer at `p` is farther than the grab tolerance from the point `q`. -/
def beyondTolerance (p q : QPointF) : Prop :=
  ((2 * _pointDiameter : ℚ) : ℝ) < Real.sqrt ((QPointF.dotProduct (p - q) (p - q) : ℚ) : ℝ)

/-- The handler `Connection::mousePressEvent`, in exact arithmetic. -/
def Connection.mousePressEvent (c : Connection) (event : QGraphicsSceneMouseEvent) :
    Connection × QGraphicsSceneMouseEvent :=
  let tolerance : ℚ := 2 * _pointDiameter
  if distanceLt (event.pos - c._source) tolerance then
    ({ c with _dragging := .SOURCE }, event)
  else if distanceLt (event.pos - c._sink) tolerance then
    ({ c with _dragging := .SINK }, event)
  else
    (c, { event with accepted := false })

/-- The handler `Connection::mouseMoveEvent`, in exact arithmetic. -/
def Connection.mouseMoveEvent (c : Connection) (event : QGraphicsSceneMouseEvent) :
    Connection × QGraphicsSceneMouseEvent :=
  let p := event.pos - event.lastPos
  let c1 : Connection :=
    match c._dragging with
    | .SOURCE => { c with _source := c._source + p }
    | .SINK => { c with _sink := c._sink + p }
    | .NONE => c
  (c1, { event with accepted := true })

/-- The member function `Connection::locateNodeAt`; the view transform is part of
the scene query `ctx.items`. -/
def locateNodeAt (ctx : Context) (scenePoint : QPointF) : Option Node :=
  let items := ctx.items scenePoint
  let filteredItems := items.filter (fun item => item.dynamicCastNode.isSome)
  match filteredItems with
  | [] => none
  | front :: _ => front.dynamicCastNode

/-- The handler `Connection::mouseReleaseEvent`. -/
def Connection.mouseReleaseEvent (ctx : Context) (c : Connection)
    (event : QGraphicsSceneMouseEvent) : Outcome (Connection × QGraphicsSceneMouseEvent) :=
  let scenePoint := ctx.mapToScene event.pos
  let flowItem := locateNodeAt ctx scenePoint
  let r : Outcome Connection :=
    match flowItem with
    | some n =>
      match ctx.tryConnect n c with
      | some address => c.connectToNode ctx address
      | none => .returned c
    | none => .returned c
  match r with
  | .returned c1 => .returned ({ c1 with _dragging := .NONE }, { event with accepted := true })
  | .asserted s => .asserted s

/-- The slot `Connection::onItemMoved`. -/
def Connection.onItemMoved (ctx : Context) (c : Connection) : Connection :=
  let c1 : Connection :=
    if !c._sourceAddress.1.isNull then
      let scenePos := ctx.connectionPointScenePosition c._sourceAddress.1 c._sourceAddress.2 .SOURCE
      { c with _source := ctx.mapFromScene scenePos }
    else c
  if !c1._sinkAddress.1.isNull then
    let scenePos := ctx.connectionPointScenePosition c1._sinkAddress.1 c1._sinkAddress.2 .SINK
    { c1 with _sink := ctx.mapFromScene scenePos }
  else c1

/-! ## Runs of operations -/

/-- A call of a public member function of a connection, or the delivery of an
event or of the `itemMoved` signal to it. -/
inductive Op where
  | setDragging (dragging : EndType)
  | connectToNode (address : Address)
  | mousePressEvent (event : QGraphicsSceneMouseEvent)
  | mouseMoveEvent (event : QGraphicsSceneMouseEvent)
  | mouseReleaseEvent (event : QGraphicsSceneMouseEvent)
  | onItemMoved
  deriving DecidableEq, Repr

/-- One operation on a connection under the layout and scene `ctx`, with press
and move in exact arithmetic. Only
`connectToNode`, called directly or by the node under a release, can trip an
assertion; every other member function returns. -/
def Connection.perform (ctx : Context) (c : Connection) : Op → Outcome Connection
  | .setDragging dragging => .returned (c.setDragging dragging)
  | .connectToNode address => c.connectToNode ctx address
  | .mousePressEvent event => .returned (c.mousePressEvent event).1
  | .mouseMoveEvent event => .returned (c.mouseMoveEvent event).1
  | .mouseReleaseEvent event =>
    match c.mouseReleaseEvent ctx event with
    | .returned r => .returned r.1
    | .asserted s => .asserted s
  | .onItemMoved => .returned (c.onItemMoved ctx)

/-- A sequence of operations, each under the layout and scene of its moment; the
run stops at the first assertion that trips. -/
def Connection.run (c : Connection) : List (Context × Op) → Outcome Connection
  | [] => .returned c
  | step :: rest =>
    match c.perform step.1 step.2 with
    | .returned c1 => c1.run rest
    | .asserted s => .asserted s

/-- End `e` is unbound and is not the end being dragged. -/
def Connection.idleFree (c : Connection) (e : EndType) : Bool :=
  !(c.address e).bound && decide (c._dragging ≠ e)

/-- The state in which the outcome of an event handler leaves the connection. -/
def Outcome.state : Outcome (Connection × QGraphicsSceneMouseEvent) → Connection
  | .returned r => r.1
  | .asserted s => s

/-- Nodes are identified by identifiers made with `QUuid::createUuid()`: a node
that binds gives an address whose node identifier is not null. -/
def Context.bindsNodes (ctx : Context) : Prop :=
  ∀ (n : Node) (c : Connection) (address : Address),
    ctx.tryConnect n c = some address → address.bound = true

/-- Modelled from the spec: a node binds the currently dragged end of a
connection, so it calls `connectToNode` only while a drag is in progress, which
is the precondition of `connectToNode`. -/
def Context.respectsDrag (ctx : Context) : Prop :=
  ∀ (n : Node) (c : Connection) (address : Address),
    ctx.tryConnect n c = some address → c._dragging ≠ EndType.NONE

/-! ## Arithmetic of coordinates

`qreal` is a double. A finite double is a rational number, so the state keeps
rationals; what the machine computes with them is described by an `Arith`: the
three operations used by the handlers, each rounding its exact result once, and
the comparison of a rounded square root. `Arith.exact` is arithmetic without
rounding, `Arith.binary64` is IEEE 754 binary64 with round-to-nearest, ties to
even. Infinities and NaN are not values of the model: a computation that
overflows is outside it.

`Connection.mousePressEvent` and `Connection.mouseMoveEvent` above are the
handlers in exact arithmetic; `Connection.mousePressEventIn` and
`Connection.mouseMoveEventIn` below are the same handlers under any
arithmetic. -/

/-- The arithmetic of `qreal` values. -/
structure Arith where
  /-- The sum `a + b` as computed. -/
  add : ℚ → ℚ → ℚ
  /-- The difference `a - b` as computed. -/
  sub : ℚ → ℚ → ℚ
  /-- The product `a * b` as computed. -/
  mul : ℚ → ℚ → ℚ
  /-- The comparison `sqrt(x) < t` as computed. -/
  sqrtLt : ℚ → ℚ → Bool

/-- The number of binary digits of `n`; the fuel `n` is never used up. -/
def bitLengthAux : Nat → Nat → Nat
  | 0, _ => 0
  | fuel + 1, n => if n = 0 then 0 else bitLengthAux fuel (n / 2) + 1

/-- The number of binary digits of `n`: 0 for 0, and `k + 1` when
`2 ^ k ≤ n < 2 ^ (k + 1)`. -/
def bitLength (n : Nat) : Nat := bitLengthAux n n

/-- The integer square root, digit by digit from bit `b - 1` down, with `r` the
digits found so far. -/
def isqrtAux (n : Nat) : Nat → Nat → Nat
  | 0, r => r
  | b + 1, r =>
    if (r + 2 ^ b) * (r + 2 ^ b) ≤ n then isqrtAux n b (r + 2 ^ b) else isqrtAux n b r

/-- The integer square root: the largest `r` with `r * r ≤ n`. -/
def isqrt (n : Nat) : Nat := isqrtAux n (bitLength n / 2 + 1) 0

/-- The binary exponent of a positive rational `a`: the integer `e` with
`2 ^ e ≤ a < 2 ^ (e + 1)`. The difference of the digit counts of numerator and
denominator is `e` or `e + 1`. -/
def floorLog2 (a : ℚ) : Int :=
  let e0 : Int := (bitLength a.num.natAbs : Int) - (bitLength a.den : Int)
  if (2 : ℚ) ^ e0 ≤ a then e0 else e0 - 1

/-- The integer nearest to `s`, the even one of the two when `s` lies halfway. -/
def roundHalfEven (s : ℚ) : Int :=
  let m := ⌊s⌋
  let r := s - m
  if r < 1 / 2 then m else if 1 / 2 < r then m + 1 else if m % 2 = 0 then m else m + 1

/-- The binary64 value nearest to `q`, ties to even: 53 significant bits at the
binary exponent of `q`, and the fixed spacing `2 ^ (-1074)` below `2 ^ (-1022)`. -/
def Binary64.round (q : ℚ) : ℚ :=
  if q = 0 then 0
  else
    let a := |q|
    let e := max (floorLog2 a) (-1022)
    let r := (roundHalfEven (a / (2 : ℚ) ^ (e - 52)) : ℚ) * (2 : ℚ) ^ (e - 52)
    if q < 0 then -r else r

/-- The binary64 square root of `x`, correctly rounded: with `e` the binary
exponent of the root and `s` the square of the root counted in units of
`2 ^ (e - 52)`, the root has integer part `m = isqrt ⌊s⌋` in those units and is
rounded up exactly when it exceeds `m + 1/2`, that is when `s` exceeds
`(m + 1/2) ^ 2`. -/
def Binary64.sqrt (x : ℚ) : ℚ :=
  if x ≤ 0 then 0
  else
    let e := floorLog2 x / 2
    let s := x / (2 : ℚ) ^ (2 * (e - 52))
    let m : ℚ := (isqrt ⌊s⌋.toNat : ℕ)
    let h := (m + 1 / 2) ^ 2
    let m1 : ℚ :=
      if s < h then m
      else if h < s then m + 1
      else if isqrt ⌊s⌋.toNat % 2 = 0 then m else m + 1
    m1 * (2 : ℚ) ^ (e - 52)

/-- Arithmetic without rounding; the square root is below `t` exactly when `t` is
positive and the radicand is below `t * t` (the test `distanceLt`). -/
def Arith.exact : Arith where
  add := fun a b => a + b
  sub := fun a b => a - b
  mul := fun a b => a * b
  sqrtLt := fun x t => decide (0 < t ∧ x < t * t)

/-- IEEE 754 binary64 arithmetic, round to nearest, ties to even: every
operation rounds its exact result once (no fused multiply-add, no extended
precision); the square root of a negative number is NaN, which is below
nothing. -/
def Arith.binary64 : Arith where
  add := fun a b => Binary64.round (a + b)
  sub := fun a b => Binary64.round (a - b)
  mul := fun a b => Binary64.round (a * b)
  sqrtLt := fun x t => decide (0 ≤ x ∧ Binary64.sqrt x < t)

/-- The operator `-` of `QPointF`, coordinate by coordinate. -/
def Arith.psub (A : Arith) (p q : QPointF) : QPointF := ⟨A.sub p.x q.x, A.sub p.y q.y⟩

/-- The operator `+=` of `QPointF`, coordinate by coordinate. -/
def Arith.padd (A : Arith) (p q : QPointF) : QPointF := ⟨A.add p.x q.x, A.add p.y q.y⟩

/-- The static `QPointF::dotProduct` as computed. -/
def Arith.dotProduct (A : Arith) (a b : QPointF) : ℚ := A.add (A.mul a.x b.x) (A.mul a.y b.y)

/-- One block of `mousePressEvent`: `diff = pos - endpoint`, then the test
`sqrt(dotProduct(diff, diff)) < tolerance` with `tolerance = 2.0 * _pointDiameter`. -/
def Arith.near (A : Arith) (pos endpoint : QPointF) : Bool :=
  let tolerance := A.mul 2 _pointDiameter
  let diff := A.psub pos endpoint
  A.sqrtLt (A.dotProduct diff diff) tolerance

/-- What the handlers need of the arithmetic for a point to be near itself: a
finite value minus itself is zero, the dot product of the zero vector is zero,
and the root of zero is below the tolerance. -/
structure Arith.AtRest (A : Arith) : Prop where
  sub_self : ∀ x : ℚ, A.sub x x = 0
  dot_zero : A.add (A.mul 0 0) (A.mul 0 0) = 0
  sqrt_zero : A.sqrtLt 0 (A.mul 2 _pointDiameter) = true

/-- The handler `Connection::mousePressEvent` under the arithmetic `A`. -/
def Connection.mousePressEventIn (A : Arith) (c : Connection)
    (event : QGraphicsSceneMouseEvent) : Connection × QGraphicsSceneMouseEvent :=
  if A.near event.pos c._source then
    ({ c with _dragging := .SOURCE }, event)
  else if A.near event.pos c._sink then
    ({ c with _dragging := .SINK }, event)
  else
    (c, { event with accepted := false })

/-- The handler `Connection::mouseMoveEvent` under the arithmetic `A`. -/
def Connection.mouseMoveEventIn (A : Arith) (c : Connection)
    (event : QGraphicsSceneMouseEvent) : Connection × QGraphicsSceneMouseEvent :=
  let p := A.psub event.pos event.lastPos
  let c1 : Connection :=
    match c._dragging with
    | .SOURCE => { c with _source := A.padd c._source p }
    | .SINK => { c with _sink := A.padd c._sink p }
    | .NONE => c
  (c1, { event with accepted := true })

/-- A run of `mouseMoveEvent` over a sequence of pointer moves, in order, under
the arithmetic `A`. -/
def Connection.dragByIn (A : Arith) (c : Connection)
    (moves : List QGraphicsSceneMouseEvent) : Connection :=
  moves.foldl (fun s event => (s.mouseMoveEventIn A event).1) c

/-- One operation on a connection under the arithmetic `A` and the layout and
scene `ctx`. -/
def Connection.performIn (A : Arith) (ctx : Context) (c : Connection) :
    Op → Outcome Connection
  | .setDragging dragging => .returned (c.setDragging dragging)
  | .connectToNode address => c.connectToNode ctx address
  | .mousePressEvent event => .returned (c.mousePressEventIn A event).1
  | .mouseMoveEvent event => .returned (c.mouseMoveEventIn A event).1
  | .mouseReleaseEvent event =>
    match c.mouseReleaseEvent ctx event with
    | .returned r => .returned r.1
    | .asserted s => .asserted s
  | .onItemMoved => .returned (c.onItemMoved ctx)

/-- A sequence of operations under the arithmetic `A`, each under the layout and
scene of its moment; the run stops at the first assertion that trips. -/
def Connection.runIn (A : Arith) (c : Connection) : List (Context × Op) → Outcome Connection
  | [] => .returned c
  | step :: rest =>
    match c.performIn A step.1 step.2 with
    | .returned c1 => c1.runIn A rest
    | .asserted s => .asserted s

/-- A step that does not take the last binding away and binds only to nodes of
non-null identifier: a call `setDragging(e)` with `e` not `NONE` is made while
the other end is bound, and an address bound by `connectToNode`, directly or by
a node under a release, has a non-null node identifier. -/
def Connection.keepsBinding (c : Connection) (step : Context × Op) : Prop :=
  (∀ dragging : EndType, step.2 = Op.setDragging dragging →
      dragging = EndType.NONE ∨ (c.address dragging.opposite).bound = true)
    ∧ (∀ address : Address, step.2 = Op.connectToNode address → address.bound = true)
    ∧ step.1.bindsNodes

/-- Every step of the run from `c`, taken in the state in which it is performed,
keeps a binding. -/
def Connection.runKeepsBinding (A : Arith) (c : Connection) : List (Context × Op) → Prop
  | [] => True
  | step :: rest =>
    c.keepsBinding step
      ∧ match c.performIn A step.1 step.2 with
        | .returned c1 => c1.runKeepsBinding A rest
        | .asserted _ => True

/-! ## Sample data

A small layout on which the statements below are evaluated: the node with
identifier `n` offers its sink-side port `p` at `(100 n, 10 p)` and its
source-side port `p` at `(100 n + 50, 10 p)`; the connection item sits at the
scene origin, the scene query finds no item, and no node binds. -/

/-- A sample layout. -/
def sampleContext : Context where
  connectionPointScenePosition := fun n p e =>
    match e with
    | .SOURCE => ⟨100 * n.data + 50, 10 * p⟩
    | _ => ⟨100 * n.data, 10 * p⟩
  mapFromScene := fun q => q
  mapToScene := fun q => q
  items := fun _ => []
  tryConnect := fun _ _ => none

/-- The sample layout after node 1 has been moved by `(30, 40)`. -/
def sampleContextMoved : Context :=
  { sampleContext with
    connectionPointScenePosition := fun n p e =>
      if n.data = 1 then sampleContext.connectionPointScenePosition n p e + ⟨30, 40⟩
      else sampleContext.connectionPointScenePosition n p e }

/-- A press (or release) of the pointer at `p`, delivered accepted as Qt does. -/
def pointerAt (p : QPointF) : QGraphicsSceneMouseEvent :=
  { pos := p, lastPos := p, accepted := true }

/-- A connection just dragged out of port 0 of node 1 by its sink end and released
on the spot: both endpoints coincide at `(150, 0)`, the sink is free. -/
def sampleDangling : Connection :=
  { _source := ⟨150, 0⟩
    _sink := ⟨150, 0⟩
    _sourceAddress := (⟨1⟩, 0)
    _sinkAddress := Address.default
    _dragging := .NONE
    itemMoved := [⟨1⟩] }

/-- One pointer move from `(150, 0)` to `(250, 60)`. -/
def sampleMoves : List QGraphicsSceneMouseEvent :=
  [{ pos := ⟨250, 60⟩, lastPos := ⟨150, 0⟩, accepted := true }]

/-- A connection bound at both ends, at rest: source at port 0 of node 1, sink at
port 1 of node 2. -/
def sampleBound : Connection :=
  { _source := ⟨150, 0⟩
    _sink := ⟨200, 10⟩
    _sourceAddress := (⟨1⟩, 0)
    _sinkAddress := (⟨2⟩, 1)
    _dragging := .NONE
    itemMoved := [⟨1⟩] }

/-- A sample layout with two overlapping nodes under every point: node 1 on top,
node 2 below it, and items of other classes in between. Node 2 binds port 1
while a drag is in progress; node 1 would do the same. -/
def sampleContextOverlap : Context :=
  { sampleContext with
    items := fun _ => [.other 7, .node ⟨⟨1⟩⟩, .other 8, .node ⟨⟨2⟩⟩, .other 9]
    tryConnect := fun n c => if c._dragging = .NONE then none else some (n.id, 1) }

/-- A connection dragged out of port 0 of node 1 by its sink end, whose source
end was then taken up through `setDragging` and dropped on the empty canvas:
neither end is bound and no end is dragged. -/
def sampleOrphan : Connection :=
  { _source := ⟨150, 0⟩
    _sink := ⟨150, 0⟩
    _sourceAddress := (QUuid.null, -1)
    _sinkAddress := Address.default
    _dragging := .NONE
    itemMoved := [⟨1⟩] }

/-- The double nearest to one tenth, `0x1.999999999999ap-4`. -/
def tenth : ℚ := 3602879701896397 / 36028797018963968

/-- A layout with fractional coordinates: port `p` of node `n` sits at
`(n / 10, p + n / 10)`, rounded to doubles, in both roles; port 0 of node 1 is at
`(0.1, 0.1)`. The scene query finds no item and no node binds. -/
def sampleContextFine : Context :=
  { sampleContext with
    connectionPointScenePosition := fun n p _ =>
      ⟨Binary64.round (n.data / 10), Binary64.round (p + n.data / 10)⟩ }

/-- The anchor of port 0 of node 1 in the fractional layout. -/
def fineSource : QPointF := ⟨tenth, tenth⟩

/-- The point with the double coordinates `0x1.3b8de66cab872p+1` and
`0x1.3f5ab4ed51853p+4`, about `(2.4653, 19.9596)`. Its distance from
`(0.1, 0.1)` exceeds 20 by about `2.6e-18`. -/
def fineSink : QPointF :=
  ⟨2775644952157241 / 1125899906842624, 5618140668303443 / 281474976710656⟩

/-- One pointer move from `fineSource` to `fineSink`. -/
def fineMoves : List QGraphicsSceneMouseEvent :=
  [{ pos := fineSink, lastPos := fineSource, accepted := true }]

/-- The double nearest to seven tenths, `0x1.6666666666666p-1`. -/
def sevenTenths : ℚ := 3152519739159347 / 4503599627370496

/-- A pointer move by `(0.7, 0)`. -/
def moveBySevenTenths : QGraphicsSceneMouseEvent :=
  { pos := ⟨sevenTenths, 0⟩, lastPos := ⟨0, 0⟩, accepted := true }

/-- A pointer move by `(1.4, 0)`; the double `1.4` is twice the double `0.7`. -/
def moveByFourteenTenths : QGraphicsSceneMouseEvent :=
  { pos := ⟨2 * sevenTenths, 0⟩, lastPos := ⟨0, 0⟩, accepted := true }

/-- A re-routing run: the dragged sink is connected to port 1 of node 2, the
source end is taken up with `setDragging` and dropped on the empty canvas. -/
def sampleReroute : List (Context × Op) :=
  [(sampleContext, Op.connectToNode (⟨2⟩, 1)),
    (sampleContext, Op.setDragging .SOURCE),
    (sampleContext, Op.mouseReleaseEvent (pointerAt ⟨150, 0⟩))]

/-- The state after the re-routing run: the sink is bound to port 1 of node 2,
the source is free. -/
def sampleRerouted : Connection :=
  { _source := ⟨150, 0⟩
    _sink := ⟨200, 10⟩
    _sourceAddress := (QUuid.null, -1)
    _sinkAddress := (⟨2⟩, 1)
    _dragging := .NONE
    itemMoved := [⟨1⟩] }

/-! ## Field-by-field description of the operations -/

theorem QPointF.add_def (a b : QPointF) : a + b = ⟨a.x + b.x, a.y + b.y⟩ := rfl

theorem QPointF.sub_def (a b : QPointF) : a - b = ⟨a.x - b.x, a.y - b.y⟩ := rfl

theorem connectToNode_source (ctx : Context) (c : Connection) (address : Address)
    (h : c._dragging = EndType.SOURCE) :
    c.connectToNode ctx address
      = Outcome.returned
          { c with
            _sourceAddress := address
            _source := ctx.anchor address .SOURCE
            _dragging := .NONE } := by
  simp [Connection.connectToNode, h, Context.anchor]

theorem connectToNode_sink (ctx : Context) (c : Connection) (address : Address)
    (h : c._dragging = EndType.SINK) :
    c.connectToNode ctx address
      = Outcome.returned
          { c with
            _sinkAddress := address
            _sink := ctx.anchor address .SINK
            _dragging := .NONE } := by
  simp [Connection.connectToNode, h, Context.anchor]

theorem connectToNode_none (ctx : Context) (c : Connection) (address : Address)
    (h : c._dragging = EndType.NONE) :
    c.connectToNode ctx address = Outcome.asserted c := by
  simp [Connection.connectToNode, h]

theorem onItemMoved_sourceAddress (ctx : Context) (c : Connection) :
    (c.onItemMoved ctx)._sourceAddress = c._sourceAddress := by
  cases h1 : c._sourceAddress.1.isNull <;> cases h2 : c._sinkAddress.1.isNull <;>
    simp [Connection.onItemMoved, h1, h2]

theorem onItemMoved_sinkAddress (ctx : Context) (c : Connection) :
    (c.onItemMoved ctx)._sinkAddress = c._sinkAddress := by
  cases h1 : c._sourceAddress.1.isNull <;> cases h2 : c._sinkAddress.1.isNull <;>
    simp [Connection.onItemMoved, h1, h2]

theorem onItemMoved_dragging (ctx : Context) (c : Connection) :
    (c.onItemMoved ctx)._dragging = c._dragging := by
  cases h1 : c._sourceAddress.1.isNull <;> cases h2 : c._sinkAddress.1.isNull <;>
    simp [Connection.onItemMoved, h1, h2]

theorem onItemMoved_itemMoved (ctx : Context) (c : Connection) :
    (c.onItemMoved ctx).itemMoved = c.itemMoved := by
  cases h1 : c._sourceAddress.1.isNull <;> cases h2 : c._sinkAddress.1.isNull <;>
    simp [Connection.onItemMoved, h1, h2]

theorem onItemMoved_source (ctx : Context) (c : Connection) :
    (c.onItemMoved ctx)._source
      = if c._sourceAddress.bound then ctx.anchor c._sourceAddress .SOURCE else c._source := by
  cases h1 : c._sourceAddress.1.isNull <;> cases h2 : c._sinkAddress.1.isNull <;>
    simp [Connection.onItemMoved, Address.bound, Context.anchor, h1, h2]

theorem onItemMoved_sink (ctx : Context) (c : Connection) :
    (c.onItemMoved ctx)._sink
      = if c._sinkAddress.bound then ctx.anchor c._sinkAddress .SINK else c._sink := by
  cases h1 : c._sourceAddress.1.isNull <;> cases h2 : c._sinkAddress.1.isNull <;>
    simp [Connection.onItemMoved, Address.bound, Context.anchor, h1, h2]

theorem onItemMoved_endPoint (ctx : Context) (c : Connection) (e : EndType) :
    (c.onItemMoved ctx).endPoint e
      = if (c.address e).bound then ctx.anchor (c.address e) e else c.endPoint e := by
  cases e with
  | SOURCE => exact onItemMoved_source ctx c
  | SINK => exact onItemMoved_sink ctx c
  | NONE => rfl

theorem onItemMoved_address (ctx : Context) (c : Connection) (e : EndType) :
    (c.onItemMoved ctx).address e = c.address e := by
  cases e with
  | SOURCE => exact onItemMoved_sourceAddress ctx c
  | SINK => exact onItemMoved_sinkAddress ctx c
  | NONE => rfl

/-- A notification absorbs every earlier one: only the last layout counts. -/
theorem onItemMoved_absorb (ctx ctx1 : Context) (c : Connection) :
    (c.onItemMoved ctx1).onItemMoved ctx = c.onItemMoved ctx := by
  apply Connection.ext
  · rw [onItemMoved_source, onItemMoved_source, onItemMoved_sourceAddress, onItemMoved_source]
    split_ifs <;> rfl
  · rw [onItemMoved_sink, onItemMoved_sink, onItemMoved_sinkAddress, onItemMoved_sink]
    split_ifs <;> rfl
  · simp only [onItemMoved_sourceAddress]
  · simp only [onItemMoved_sinkAddress]
  · simp only [onItemMoved_dragging]
  · simp only [onItemMoved_itemMoved]

/-! ## The grab test -/

/-- The decision procedure `distanceLt` agrees with the comparison of the real
square root that the handler writes. -/
theorem distanceLt_iff_sqrt (d : QPointF) (t : ℚ) :
    distanceLt d t = true ↔ Real.sqrt ((QPointF.dotProduct d d : ℚ) : ℝ) < (t : ℝ) := by
  unfold distanceLt
  rw [decide_eq_true_iff]
  constructor
  · rintro ⟨ht, hlt⟩
    have ht1 : (0 : ℝ) < (t : ℝ) := by exact_mod_cast ht
    rw [Real.sqrt_lt' ht1]
    have h : ((QPointF.dotProduct d d : ℚ) : ℝ) < ((t * t : ℚ) : ℝ) := by exact_mod_cast hlt
    rw [pow_two]
    exact_mod_cast h
  · intro h
    have ht1 : (0 : ℝ) < (t : ℝ) := lt_of_le_of_lt (Real.sqrt_nonneg _) h
    have ht : 0 < t := by exact_mod_cast ht1
    refine ⟨ht, ?_⟩
    rw [Real.sqrt_lt' ht1, pow_two] at h
    exact_mod_cast h

theorem withinTolerance_iff_distanceLt (p q : QPointF) :
    withinTolerance p q ↔ distanceLt (p - q) (2 * _pointDiameter) = true :=
  (distanceLt_iff_sqrt (p - q) (2 * _pointDiameter)).symm

theorem withinTolerance_iff (p q : QPointF) :
    withinTolerance p q ↔ QPointF.dotProduct (p - q) (p - q) < 400 := by
  rw [withinTolerance_iff_distanceLt]
  unfold distanceLt _pointDiameter
  rw [decide_eq_true_iff]
  norm_num

theorem beyondTolerance_iff (p q : QPointF) :
    beyondTolerance p q ↔ 400 < QPointF.dotProduct (p - q) (p - q) := by
  unfold beyondTolerance _pointDiameter
  have h20 : (0 : ℝ) ≤ ((2 * 10 : ℚ) : ℝ) := by norm_num
  rw [Real.lt_sqrt h20]
  constructor
  · intro h
    have h1 : (((2 * 10 : ℚ) ^ 2 : ℚ) : ℝ) < ((QPointF.dotProduct (p - q) (p - q) : ℚ) : ℝ) := by
      push_cast
      push_cast at h
      exact h
    have h2 : ((2 * 10 : ℚ) ^ 2 : ℚ) < QPointF.dotProduct (p - q) (p - q) := by exact_mod_cast h1
    norm_num at h2
    exact h2
  · intro h
    have h1 : ((400 : ℚ) : ℝ) < ((QPointF.dotProduct (p - q) (p - q) : ℚ) : ℝ) := by
      exact_mod_cast h
    push_cast at h1 ⊢
    norm_num
    exact h1

theorem withinTolerance_self (p : QPointF) : withinTolerance p p := by
  rw [withinTolerance_iff]
  simp [QPointF.sub_def, QPointF.dotProduct]

theorem mousePressEvent_source (c : Connection) (event : QGraphicsSceneMouseEvent)
    (h : withinTolerance event.pos c._source) :
    c.mousePressEvent event = ({ c with _dragging := .SOURCE }, event) := by
  rw [withinTolerance_iff_distanceLt] at h
  simp [Connection.mousePressEvent, h]

theorem mouseMoveEvent_sink (c : Connection) (event : QGraphicsSceneMouseEvent)
    (h : c._dragging = EndType.SINK) :
    c.mouseMoveEvent event
      = ({ c with _sink := c._sink + (event.pos - event.lastPos) },
          { event with accepted := true }) := by
  simp [Connection.mouseMoveEvent, h]

theorem mouseReleaseEvent_none (ctx : Context) (c : Connection)
    (event : QGraphicsSceneMouseEvent)
    (h : locateNodeAt ctx (ctx.mapToScene event.pos) = none) :
    c.mouseReleaseEvent ctx event
      = Outcome.returned ({ c with _dragging := .NONE }, { event with accepted := true }) := by
  simp [Connection.mouseReleaseEvent, h]

theorem pointAdd_assoc (a b c : QPointF) : a + b + c = a + (b + c) := by
  simp only [QPointF.add_def, add_assoc]

theorem mouseMoveEvent_source (c : Connection) (event : QGraphicsSceneMouseEvent)
    (h : c._dragging = EndType.SOURCE) :
    c.mouseMoveEvent event
      = ({ c with _source := c._source + (event.pos - event.lastPos) },
          { event with accepted := true }) := by
  simp [Connection.mouseMoveEvent, h]

theorem mouseMoveEvent_none (c : Connection) (event : QGraphicsSceneMouseEvent)
    (h : c._dragging = EndType.NONE) :
    c.mouseMoveEvent event = (c, { event with accepted := true }) := by
  simp [Connection.mouseMoveEvent, h]

/-! ## What each operation does to the bindings -/

theorem mousePressEvent_frame (c : Connection) (event : QGraphicsSceneMouseEvent) :
    (c.mousePressEvent event).1._sourceAddress = c._sourceAddress
      ∧ (c.mousePressEvent event).1._sinkAddress = c._sinkAddress
      ∧ (c.mousePressEvent event).1._source = c._source
      ∧ (c.mousePressEvent event).1._sink = c._sink
      ∧ (c.mousePressEvent event).1.itemMoved = c.itemMoved := by
  simp only [Connection.mousePressEvent]
  split_ifs <;> exact ⟨rfl, rfl, rfl, rfl, rfl⟩

theorem mousePressEvent_address (c : Connection) (event : QGraphicsSceneMouseEvent)
    (e : EndType) : (c.mousePressEvent event).1.address e = c.address e := by
  cases e with
  | SOURCE => exact (mousePressEvent_frame c event).1
  | SINK => exact (mousePressEvent_frame c event).2.1
  | NONE => rfl

theorem mouseMoveEvent_address (c : Connection) (event : QGraphicsSceneMouseEvent)
    (e : EndType) : (c.mouseMoveEvent event).1.address e = c.address e := by
  cases hdrag : c._dragging with
  | SOURCE => rw [mouseMoveEvent_source c event hdrag]; cases e <;> rfl
  | SINK => rw [mouseMoveEvent_sink c event hdrag]; cases e <;> rfl
  | NONE => rw [mouseMoveEvent_none c event hdrag]

theorem setDragging_address (c : Connection) (dragging e : EndType) :
    (c.setDragging dragging).address e = c.address e
      ∨ (c.setDragging dragging).address e = (QUuid.null, -1) := by
  cases dragging <;> cases e <;> first | exact Or.inl rfl | exact Or.inr rfl

theorem connectToNode_returned (ctx : Context) (c c1 : Connection) (address : Address)
    (h : c.connectToNode ctx address = Outcome.returned c1) :
    c._dragging ≠ EndType.NONE
      ∧ c1._dragging = EndType.NONE
      ∧ c1.itemMoved = c.itemMoved
      ∧ ∀ e : EndType, c1.address e = c.address e ∨ c1.address e = address := by
  cases hdrag : c._dragging with
  | SOURCE =>
    rw [connectToNode_source ctx c address hdrag] at h
    cases h
    refine ⟨by decide, rfl, rfl, fun e => ?_⟩
    cases e <;> first | exact Or.inl rfl | exact Or.inr rfl
  | SINK =>
    rw [connectToNode_sink ctx c address hdrag] at h
    cases h
    refine ⟨by decide, rfl, rfl, fun e => ?_⟩
    cases e <;> first | exact Or.inl rfl | exact Or.inr rfl
  | NONE =>
    rw [connectToNode_none ctx c address hdrag] at h
    cases h

theorem connectToNode_asserted (ctx : Context) (c s : Connection) (address : Address)
    (h : c.connectToNode ctx address = Outcome.asserted s) :
    c._dragging = EndType.NONE ∧ s = c := by
  cases hdrag : c._dragging with
  | SOURCE => rw [connectToNode_source ctx c address hdrag] at h; cases h
  | SINK => rw [connectToNode_sink ctx c address hdrag] at h; cases h
  | NONE =>
    rw [connectToNode_none ctx c address hdrag] at h
    cases h
    exact ⟨rfl, rfl⟩

theorem mouseReleaseEvent_reject (ctx : Context) (c : Connection)
    (event : QGraphicsSceneMouseEvent) (n : Node)
    (h : locateNodeAt ctx (ctx.mapToScene event.pos) = some n)
    (hreject : ctx.tryConnect n c = none) :
    c.mouseReleaseEvent ctx event
      = Outcome.returned ({ c with _dragging := .NONE }, { event with accepted := true }) := by
  simp [Connection.mouseReleaseEvent, h, hreject]

theorem mouseReleaseEvent_accept (ctx : Context) (c : Connection)
    (event : QGraphicsSceneMouseEvent) (n : Node) (address : Address)
    (h : locateNodeAt ctx (ctx.mapToScene event.pos) = some n)
    (haccept : ctx.tryConnect n c = some address) :
    c.mouseReleaseEvent ctx event
      = match c.connectToNode ctx address with
        | .returned c1 =>
          Outcome.returned ({ c1 with _dragging := .NONE }, { event with accepted := true })
        | .asserted s => Outcome.asserted s := by
  simp [Connection.mouseReleaseEvent, h, haccept]

/-- The three ways a release can go: nothing binds, a node binds during a drag,
or a node calls `connectToNode` while no drag is in progress. -/
theorem mouseReleaseEvent_cases (ctx : Context) (c : Connection)
    (event : QGraphicsSceneMouseEvent) :
    ((locateNodeAt ctx (ctx.mapToScene event.pos) = none
          ∨ ∃ n, locateNodeAt ctx (ctx.mapToScene event.pos) = some n
              ∧ ctx.tryConnect n c = none)
        ∧ c.mouseReleaseEvent ctx event
          = Outcome.returned ({ c with _dragging := .NONE }, { event with accepted := true }))
      ∨ (∃ n address c1, locateNodeAt ctx (ctx.mapToScene event.pos) = some n
          ∧ ctx.tryConnect n c = some address
          ∧ c.connectToNode ctx address = Outcome.returned c1
          ∧ c.mouseReleaseEvent ctx event
            = Outcome.returned ({ c1 with _dragging := .NONE }, { event with accepted := true }))
      ∨ (∃ n address, locateNodeAt ctx (ctx.mapToScene event.pos) = some n
          ∧ ctx.tryConnect n c = some address
          ∧ c._dragging = EndType.NONE
          ∧ c.mouseReleaseEvent ctx event = Outcome.asserted c) := by
  cases hloc : locateNodeAt ctx (ctx.mapToScene event.pos) with
  | none => exact Or.inl ⟨Or.inl rfl, mouseReleaseEvent_none ctx c event hloc⟩
  | some n =>
    cases htry : ctx.tryConnect n c with
    | none =>
      exact Or.inl ⟨Or.inr ⟨n, rfl, htry⟩, mouseReleaseEvent_reject ctx c event n hloc htry⟩
    | some address =>
      have hacc := mouseReleaseEvent_accept ctx c event n address hloc htry
      cases hcon : c.connectToNode ctx address with
      | returned c1 =>
        rw [hcon] at hacc
        exact Or.inr (Or.inl ⟨n, address, c1, rfl, htry, hcon, hacc⟩)
      | asserted s =>
        rw [hcon] at hacc
        obtain ⟨hnone, hs⟩ := connectToNode_asserted ctx c s address hcon
        subst hs
        exact Or.inr (Or.inr ⟨n, address, rfl, htry, hnone, hacc⟩)

/-! ## The arithmetic model -/

theorem bitLengthAux_lt (fuel n : Nat) (h : n ≤ fuel) : n < 2 ^ bitLengthAux fuel n := by
  induction fuel generalizing n with
  | zero =>
    have h0 : n = 0 := Nat.le_zero.mp h
    subst h0
    simp [bitLengthAux]
  | succ fuel ih =>
    by_cases hn : n = 0
    · subst hn
      simp [bitLengthAux]
    · have hhalf : n / 2 ≤ fuel := by omega
      have hlt := ih (n / 2) hhalf
      simp only [bitLengthAux, hn, if_false, pow_succ]
      omega

/-- Every number is below two to the power of its digit count. -/
theorem lt_two_pow_bitLength (n : Nat) : n < 2 ^ bitLength n :=
  bitLengthAux_lt n n (Nat.le_refl n)

theorem isqrtAux_spec (n b r : Nat) (hle : r * r ≤ n) (hlt : n < (r + 2 ^ b) * (r + 2 ^ b)) :
    isqrtAux n b r * isqrtAux n b r ≤ n
      ∧ n < (isqrtAux n b r + 1) * (isqrtAux n b r + 1) := by
  induction b generalizing r with
  | zero => simpa [isqrtAux] using And.intro hle hlt
  | succ b ih =>
    simp only [isqrtAux]
    split_ifs with hc
    · apply ih _ hc
      have h2 : r + 2 ^ b + 2 ^ b = r + 2 ^ (b + 1) := by rw [pow_succ]; omega
      rw [h2]
      exact hlt
    · exact ih r hle (Nat.lt_of_not_le hc)

/-- The digit-by-digit root is the integer square root. -/
theorem isqrt_eq_sqrt (n : Nat) : isqrt n = Nat.sqrt n := by
  apply Nat.eq_sqrt.mpr
  apply isqrtAux_spec n _ 0 (by simp)
  have h1 : n < 2 ^ bitLength n := lt_two_pow_bitLength n
  have h2 : bitLength n ≤ 2 * (bitLength n / 2 + 1) := by omega
  have h3 : 2 ^ bitLength n ≤ 2 ^ (2 * (bitLength n / 2 + 1)) :=
    Nat.pow_le_pow_right (by decide) h2
  have h4 : (0 + 2 ^ (bitLength n / 2 + 1)) * (0 + 2 ^ (bitLength n / 2 + 1))
      = 2 ^ (2 * (bitLength n / 2 + 1)) := by
    rw [Nat.zero_add, ← pow_two, ← pow_mul, Nat.mul_comm]
  rw [h4]
  exact lt_of_lt_of_le h1 h3

/-- The model on known doubles: `0.1`, `0.7`, `1 / 3`, `0.1 + 0.2`, `-0.1 * 3`,
`150 + 0.7`, `1e16 + 1`, the roots of 2, of `1 / 8` and of 400, ties rounded to
even at the 53rd bit and at the smallest subnormal, and an exact difference. -/
theorem binary64_known_values :
    Binary64.round (1 / 10) = tenth
      ∧ Binary64.round (7 / 10) = sevenTenths
      ∧ Binary64.round (1 / 3) = 6004799503160661 / 18014398509481984
      ∧ Arith.binary64.add tenth (2 * tenth) = 1351079888211149 / 4503599627370496
      ∧ Arith.binary64.mul (-tenth) 3 = -(1351079888211149 / 4503599627370496)
      ∧ Arith.binary64.add 150 sevenTenths = 2651142436893491 / 17592186044416
      ∧ Arith.binary64.add 10000000000000000 1 = 10000000000000000
      ∧ Binary64.sqrt 2 = 6369051672525773 / 4503599627370496
      ∧ Binary64.sqrt (1 / 8) = 6369051672525773 / 18014398509481984
      ∧ Binary64.sqrt 400 = 20
      ∧ Binary64.round (9007199254740993) = 9007199254740992
      ∧ Binary64.round (9007199254740995) = 9007199254740996
      ∧ Binary64.round (1 / 2 ^ 1075) = 0
      ∧ Binary64.round (3 / 2 ^ 1075) = 1 / 2 ^ 1073
      ∧ Arith.binary64.sub 250 150 = 100 := by
  decide!

theorem exact_atRest : Arith.exact.AtRest where
  sub_self := fun x => sub_self x
  dot_zero := by norm_num [Arith.exact]
  sqrt_zero := by norm_num [Arith.exact, _pointDiameter]

theorem binary64_atRest : Arith.binary64.AtRest where
  sub_self := fun x => by simp [Arith.binary64, Binary64.round]
  dot_zero := by decide!
  sqrt_zero := by decide!

theorem near_self (A : Arith) (hA : A.AtRest) (p : QPointF) : A.near p p = true := by
  simp only [Arith.near, Arith.psub, Arith.dotProduct, hA.sub_self, hA.dot_zero, hA.sqrt_zero]

/-- In exact arithmetic the test of the handler is the geometric one. -/
theorem near_exact_iff (p q : QPointF) :
    Arith.exact.near p q = true ↔ withinTolerance p q :=
  (withinTolerance_iff_distanceLt p q).symm

theorem mousePressEventIn_exact (c : Connection) (event : QGraphicsSceneMouseEvent) :
    c.mousePressEventIn Arith.exact event = c.mousePressEvent event := rfl

theorem mouseMoveEventIn_exact (c : Connection) (event : QGraphicsSceneMouseEvent) :
    c.mouseMoveEventIn Arith.exact event = c.mouseMoveEvent event := rfl

/-! ## The handlers under any arithmetic -/

theorem mousePressEventIn_source (A : Arith) (c : Connection)
    (event : QGraphicsSceneMouseEvent) (h : A.near event.pos c._source = true) :
    c.mousePressEventIn A event = ({ c with _dragging := .SOURCE }, event) := by
  simp [Connection.mousePressEventIn, h]

theorem mousePressEventIn_sink (A : Arith) (c : Connection)
    (event : QGraphicsSceneMouseEvent) (h1 : A.near event.pos c._source = false)
    (h2 : A.near event.pos c._sink = true) :
    c.mousePressEventIn A event = ({ c with _dragging := .SINK }, event) := by
  simp [Connection.mousePressEventIn, h1, h2]

theorem mousePressEventIn_neither (A : Arith) (c : Connection)
    (event : QGraphicsSceneMouseEvent) (h1 : A.near event.pos c._source = false)
    (h2 : A.near event.pos c._sink = false) :
    c.mousePressEventIn A event = (c, { event with accepted := false }) := by
  simp [Connection.mousePressEventIn, h1, h2]

theorem mousePressEventIn_address (A : Arith) (c : Connection)
    (event : QGraphicsSceneMouseEvent) (e : EndType) :
    (c.mousePressEventIn A event).1.address e = c.address e := by
  simp only [Connection.mousePressEventIn]
  split_ifs <;> cases e <;> rfl

theorem mouseMoveEventIn_source (A : Arith) (c : Connection)
    (event : QGraphicsSceneMouseEvent) (h : c._dragging = EndType.SOURCE) :
    c.mouseMoveEventIn A event
      = ({ c with _source := A.padd c._source (A.psub event.pos event.lastPos) },
          { event with accepted := true }) := by
  simp [Connection.mouseMoveEventIn, h]

theorem mouseMoveEventIn_sink (A : Arith) (c : Connection)
    (event : QGraphicsSceneMouseEvent) (h : c._dragging = EndType.SINK) :
    c.mouseMoveEventIn A event
      = ({ c with _sink := A.padd c._sink (A.psub event.pos event.lastPos) },
          { event with accepted := true }) := by
  simp [Connection.mouseMoveEventIn, h]

theorem mouseMoveEventIn_none (A : Arith) (c : Connection)
    (event : QGraphicsSceneMouseEvent) (h : c._dragging = EndType.NONE) :
    c.mouseMoveEventIn A event = (c, { event with accepted := true }) := by
  simp [Connection.mouseMoveEventIn, h]

theorem mouseMoveEventIn_address (A : Arith) (c : Connection)
    (event : QGraphicsSceneMouseEvent) (e : EndType) :
    (c.mouseMoveEventIn A event).1.address e = c.address e := by
  cases hdrag : c._dragging with
  | SOURCE => rw [mouseMoveEventIn_source A c event hdrag]; cases e <;> rfl
  | SINK => rw [mouseMoveEventIn_sink A c event hdrag]; cases e <;> rfl
  | NONE => rw [mouseMoveEventIn_none A c event hdrag]

theorem dragByIn_sink_frame (A : Arith) (moves : List QGraphicsSceneMouseEvent)
    (c : Connection) (h : c._dragging = EndType.SINK) :
    (c.dragByIn A moves)._dragging = EndType.SINK
      ∧ (c.dragByIn A moves)._source = c._source
      ∧ (c.dragByIn A moves)._sourceAddress = c._sourceAddress
      ∧ (c.dragByIn A moves)._sinkAddress = c._sinkAddress := by
  induction moves generalizing c with
  | nil => exact ⟨h, rfl, rfl, rfl⟩
  | cons event rest ih =>
    have hstep : c.dragByIn A (event :: rest)
        = (c.mouseMoveEventIn A event).1.dragByIn A rest := rfl
    rw [hstep, mouseMoveEventIn_sink A c event h]
    exact ih _ h

/-! ## Runs under any arithmetic -/

theorem performIn_mouseReleaseEvent (A : Arith) (ctx : Context) (c : Connection)
    (event : QGraphicsSceneMouseEvent) :
    c.performIn A ctx (.mouseReleaseEvent event)
      = match c.mouseReleaseEvent ctx event with
        | .returned r => Outcome.returned r.1
        | .asserted s => Outcome.asserted s := rfl

/-- The exact-arithmetic operations are the operations under `Arith.exact`. -/
theorem performIn_exact (ctx : Context) (c : Connection) (op : Op) :
    c.performIn Arith.exact ctx op = c.perform ctx op := by
  cases op <;> rfl

theorem runIn_exact (ops : List (Context × Op)) (c : Connection) :
    c.runIn Arith.exact ops = c.run ops := by
  induction ops generalizing c with
  | nil => rfl
  | cons step rest ih =>
    simp only [Connection.runIn, Connection.run, performIn_exact]
    cases c.perform step.1 step.2 with
    | returned c1 => exact ih c1
    | asserted s => rfl

/-- A step that keeps a binding and returns leaves some end bound, under every
arithmetic. -/
theorem performIn_keeps_some_bound (A : Arith) (step : Context × Op) (c c1 : Connection)
    (hstep : c.keepsBinding step) (h : c.performIn A step.1 step.2 = Outcome.returned c1)
    (hb : c._sourceAddress.bound = true ∨ c._sinkAddress.bound = true) :
    c1._sourceAddress.bound = true ∨ c1._sinkAddress.bound = true := by
  obtain ⟨ctx, op⟩ := step
  obtain ⟨hset, hconn, hnodes⟩ := hstep
  have hmono : (∀ e : EndType, (c.address e).bound = true → (c1.address e).bound = true) →
      c1._sourceAddress.bound = true ∨ c1._sinkAddress.bound = true := by
    intro hm
    rcases hb with hb | hb
    · exact Or.inl (hm .SOURCE hb)
    · exact Or.inr (hm .SINK hb)
  cases op with
  | setDragging dragging =>
    cases h
    cases dragging with
    | SOURCE =>
      rcases hset .SOURCE rfl with h0 | h0
      · exact absurd h0 (by decide)
      · exact Or.inr h0
    | SINK =>
      rcases hset .SINK rfl with h0 | h0
      · exact absurd h0 (by decide)
      · exact Or.inl h0
    | NONE => exact hb
  | connectToNode address =>
    apply hmono
    intro e he
    rcases (connectToNode_returned ctx c c1 address h).2.2.2 e with h1 | h1
    · rw [h1]; exact he
    · rw [h1]; exact hconn address rfl
  | mousePressEvent event =>
    cases h
    apply hmono
    intro e he
    rw [mousePressEventIn_address]; exact he
  | mouseMoveEvent event =>
    cases h
    apply hmono
    intro e he
    rw [mouseMoveEventIn_address]; exact he
  | mouseReleaseEvent event =>
    have h2 : c.performIn A ctx (.mouseReleaseEvent event) = Outcome.returned c1 := h
    rw [performIn_mouseReleaseEvent] at h2
    apply hmono
    intro e he
    rcases mouseReleaseEvent_cases ctx c event with
      ⟨_, hr⟩ | ⟨n, address, c2, _, htry, hcon, hr⟩ | ⟨n, address, _, _, _, hr⟩
    · rw [hr] at h2
      cases h2
      cases e <;> exact he
    · rw [hr] at h2
      cases h2
      have hc2 : (c2.address e).bound = true := by
        rcases (connectToNode_returned ctx c c2 address hcon).2.2.2 e with h1 | h1
        · rw [h1]; exact he
        · rw [h1]; exact hnodes n c address htry
      cases e <;> exact hc2
    · rw [hr] at h2
      cases h2
  | onItemMoved =>
    cases h
    apply hmono
    intro e he
    rw [onItemMoved_address]; exact he

theorem runIn_keeps_some_bound (A : Arith) (ops : List (Context × Op)) (c c1 : Connection)
    (hops : c.runKeepsBinding A ops) (h : c.runIn A ops = Outcome.returned c1)
    (hb : c._sourceAddress.bound = true ∨ c._sinkAddress.bound = true) :
    c1._sourceAddress.bound = true ∨ c1._sinkAddress.bound = true := by
  induction ops generalizing c with
  | nil =>
    cases h
    exact hb
  | cons step rest ih =>
    obtain ⟨hstep, hrest⟩ := hops
    cases hperf : c.performIn A step.1 step.2 with
    | returned c2 =>
      rw [hperf] at hrest
      have hrun : c2.runIn A rest = Outcome.returned c1 := by
        simpa [Connection.runIn, hperf] using h
      exact ih c2 hrest hrun (performIn_keeps_some_bound A step c c2 hstep hperf hb)
    | asserted s =>
      simp [Connection.runIn, hperf] at h

theorem sampleContext_bindsNodes : sampleContext.bindsNodes := by
  intro n c address h
  cases h

theorem sampleReroute_run :
    (Connection.construct sampleContext (⟨1⟩, 0) .SINK).runIn Arith.binary64 sampleReroute
      = Outcome.returned sampleRerouted := by
  decide!

theorem sampleReroute_keepsBinding :
    (Connection.construct sampleContext (⟨1⟩, 0) .SINK).runKeepsBinding Arith.binary64
      sampleReroute := by
  have h1 : (Connection.construct sampleContext (⟨1⟩, 0) .SINK).performIn Arith.binary64
      sampleContext (Op.connectToNode (⟨2⟩, 1)) = Outcome.returned sampleBound := by decide!
  have h2 : sampleBound.performIn Arith.binary64 sampleContext (Op.setDragging .SOURCE)
      = Outcome.returned (sampleBound.setDragging .SOURCE) := rfl
  have h3 : (sampleBound.setDragging .SOURCE).performIn Arith.binary64 sampleContext
      (Op.mouseReleaseEvent (pointerAt ⟨150, 0⟩)) = Outcome.returned sampleRerouted := by decide!
  simp only [sampleReroute, Connection.runKeepsBinding, h1, h2, h3, and_true]
  refine ⟨⟨fun _ h => Op.noConfusion h, fun address h => ?_, sampleContext_bindsNodes⟩,
    ⟨fun dragging h => ?_, fun _ h => Op.noConfusion h, sampleContext_bindsNodes⟩,
    ⟨fun _ h => Op.noConfusion h, fun _ h => Op.noConfusion h, sampleContext_bindsNodes⟩⟩
  · cases h
    decide
  · cases h
    exact Or.inr (by decide)

/-! ## Construction -/

/-- C1: for every origin address and every dragging end `d` other than `NONE`,
the constructed connection has the binding of end `d` absent, the binding of the
other end equal to the origin, both endpoint positions equal to each other and
to the anchor of the origin taken with the role of the other end, and
`_dragging = d`. -/
theorem construct_spec (ctx : Context) (address : Address) (d : EndType)
    (hd : d ≠ EndType.NONE) :
    ((Connection.construct ctx address d).address d).bound = false
      ∧ (Connection.construct ctx address d).address d.opposite = address
      ∧ (Connection.construct ctx address d)._source = (Connection.construct ctx address d)._sink
      ∧ (Connection.construct ctx address d)._source = ctx.anchor address d.opposite
      ∧ (Connection.construct ctx address d)._sink = ctx.anchor address d.opposite
      ∧ (Connection.construct ctx address d)._dragging = d := by
  cases d with
  | SOURCE => exact ⟨rfl, rfl, rfl, rfl, rfl, rfl⟩
  | SINK => exact ⟨rfl, rfl, rfl, rfl, rfl, rfl⟩
  | NONE => exact absurd rfl hd

/-- Witness of C1: dragging the source end out of port 2 of node 7 leaves the
source binding empty and binds the sink to the origin. -/
theorem construct_spec_witness :
    EndType.SOURCE ≠ EndType.NONE
      ∧ ((Connection.construct sampleContext (⟨7⟩, 2) .SOURCE).address .SOURCE).bound = false
      ∧ (Connection.construct sampleContext (⟨7⟩, 2) .SOURCE).address .SINK = (⟨7⟩, 2)
      ∧ (Connection.construct sampleContext (⟨7⟩, 2) .SOURCE)._source
          = (Connection.construct sampleContext (⟨7⟩, 2) .SOURCE)._sink
      ∧ (Connection.construct sampleContext (⟨7⟩, 2) .SOURCE)._source
          = sampleContext.anchor (⟨7⟩, 2) .SINK
      ∧ (Connection.construct sampleContext (⟨7⟩, 2) .SOURCE)._sink
          = sampleContext.anchor (⟨7⟩, 2) .SINK
      ∧ (Connection.construct sampleContext (⟨7⟩, 2) .SOURCE)._dragging = .SOURCE :=
  ⟨by decide, construct_spec sampleContext (⟨7⟩, 2) .SOURCE (by decide)⟩

/-! ## Completing a drag: connectToNode -/

/-- C2: in a state whose dragging end is `e`, not `NONE`, `connectToNode` with
address `(n, p)` returns a state with `_dragging = NONE`, the binding of end `e`
equal to `(n, p)`, the position of end `e` equal to the anchor of `(n, p)` in the
role `e`, and the binding and position of the other end unchanged. -/
theorem connectToNode_spec (ctx : Context) (c : Connection) (e : EndType) (address : Address)
    (he : e ≠ EndType.NONE) (hdrag : c._dragging = e) :
    ∃ c1 : Connection, c.connectToNode ctx address = Outcome.returned c1
      ∧ c1._dragging = EndType.NONE
      ∧ c1.address e = address
      ∧ c1.endPoint e = ctx.anchor address e
      ∧ c1.address e.opposite = c.address e.opposite
      ∧ c1.endPoint e.opposite = c.endPoint e.opposite := by
  cases e with
  | SOURCE => exact ⟨_, connectToNode_source ctx c address hdrag, rfl, rfl, rfl, rfl, rfl⟩
  | SINK => exact ⟨_, connectToNode_sink ctx c address hdrag, rfl, rfl, rfl, rfl, rfl⟩
  | NONE => exact absurd rfl he

/-- Witness of C2: a connection whose sink end is dragged is dropped on port 1 of
node 2. -/
theorem connectToNode_spec_witness :
    EndType.SINK ≠ EndType.NONE
      ∧ (Connection.construct sampleContext (⟨1⟩, 0) .SINK)._dragging = EndType.SINK
      ∧ ∃ c1 : Connection,
          (Connection.construct sampleContext (⟨1⟩, 0) .SINK).connectToNode sampleContext (⟨2⟩, 1)
            = Outcome.returned c1
          ∧ c1._dragging = EndType.NONE
          ∧ c1.address .SINK = (⟨2⟩, 1)
          ∧ c1.endPoint .SINK = sampleContext.anchor (⟨2⟩, 1) .SINK
          ∧ c1.address EndType.SINK.opposite
              = (Connection.construct sampleContext (⟨1⟩, 0) .SINK).address EndType.SINK.opposite
          ∧ c1.endPoint EndType.SINK.opposite
              = (Connection.construct sampleContext (⟨1⟩, 0) .SINK).endPoint EndType.SINK.opposite :=
  ⟨by decide, rfl,
    connectToNode_spec sampleContext (Connection.construct sampleContext (⟨1⟩, 0) .SINK) .SINK
      (⟨2⟩, 1) (by decide) rfl⟩

/-- C9: with `Q_ASSERT` as an outcome, `connectToNode` trips the assertion exactly
when `_dragging = NONE`, the state at the assertion is the state on entry
(nothing has been written), and in every other state the call returns. -/
theorem connectToNode_asserts_iff (ctx : Context) (c : Connection) (address : Address) :
    ((∃ s : Connection, c.connectToNode ctx address = Outcome.asserted s)
        ↔ c._dragging = EndType.NONE)
      ∧ (c.connectToNode ctx address = Outcome.asserted c ↔ c._dragging = EndType.NONE)
      ∧ ((∃ c1 : Connection, c.connectToNode ctx address = Outcome.returned c1)
        ↔ c._dragging ≠ EndType.NONE) := by
  by_cases h : c._dragging = EndType.NONE
  · simp [Connection.connectToNode, h]
  · simp [Connection.connectToNode, h]

/-! ## Starting a drag through setDragging -/

/-- C10: for every state and every end `e` other than `NONE`, after
`setDragging e` the dragging end is `e`, the binding of `e` is absent (its node
identifier is null, the address being `(QUuid(), -1)`), the binding of the other
end and both endpoint positions are unchanged, and a following `onItemMoved`
leaves the position of `e` where it was. -/
theorem setDragging_spec (c : Connection) (e : EndType) (he : e ≠ EndType.NONE) :
    (c.setDragging e)._dragging = e
      ∧ ((c.setDragging e).address e).bound = false
      ∧ (c.setDragging e).address e = (QUuid.null, -1)
      ∧ (c.setDragging e).address e.opposite = c.address e.opposite
      ∧ (c.setDragging e)._source = c._source
      ∧ (c.setDragging e)._sink = c._sink
      ∧ ∀ ctx : Context, ((c.setDragging e).onItemMoved ctx).endPoint e = c.endPoint e := by
  cases e with
  | SOURCE =>
    refine ⟨rfl, rfl, rfl, rfl, rfl, rfl, fun ctx => ?_⟩
    exact (onItemMoved_source ctx (c.setDragging .SOURCE)).trans rfl
  | SINK =>
    refine ⟨rfl, rfl, rfl, rfl, rfl, rfl, fun ctx => ?_⟩
    exact (onItemMoved_sink ctx (c.setDragging .SINK)).trans rfl
  | NONE => exact absurd rfl he

/-- Witness of C10: the sink end of a connection bound at both ends is taken up. -/
theorem setDragging_spec_witness :
    EndType.SINK ≠ EndType.NONE
      ∧ (sampleBound.setDragging .SINK)._dragging = .SINK
      ∧ ((sampleBound.setDragging .SINK).address .SINK).bound = false
      ∧ (sampleBound.setDragging .SINK).address .SINK = (QUuid.null, -1)
      ∧ (sampleBound.setDragging .SINK).address EndType.SINK.opposite
          = sampleBound.address EndType.SINK.opposite
      ∧ (sampleBound.setDragging .SINK)._source = sampleBound._source
      ∧ (sampleBound.setDragging .SINK)._sink = sampleBound._sink
      ∧ ∀ ctx : Context,
          ((sampleBound.setDragging .SINK).onItemMoved ctx).endPoint .SINK
            = sampleBound.endPoint .SINK :=
  ⟨by decide, setDragging_spec sampleBound .SINK (by decide)⟩

/-! ## Node moved: onItemMoved -/

/-- C7: after `onItemMoved` every end whose binding is present sits at the
current anchor of its node, port and own role, every end whose binding is absent
keeps its position, and both bindings and `_dragging` are unchanged. Hence, when
the source is bound and the sink-side anchor under the current layout `ctx` is
the one of the layout `ctx0` from which `_sink` was computed, the source moves
to its current anchor and the sink stays where it is. -/
theorem onItemMoved_spec (ctx ctx0 : Context) (c : Connection) :
    (∀ e : EndType, (c.onItemMoved ctx).endPoint e
        = if (c.address e).bound then ctx.anchor (c.address e) e else c.endPoint e)
      ∧ (∀ e : EndType, (c.onItemMoved ctx).address e = c.address e)
      ∧ (c.onItemMoved ctx)._dragging = c._dragging
      ∧ (c._sourceAddress.bound = true →
          c._sink = ctx0.anchor c._sinkAddress .SINK →
          ctx.anchor c._sinkAddress .SINK = ctx0.anchor c._sinkAddress .SINK →
          (c.onItemMoved ctx)._source = ctx.anchor c._sourceAddress .SOURCE
            ∧ (c.onItemMoved ctx)._sink = c._sink) := by
  refine ⟨onItemMoved_endPoint ctx c, onItemMoved_address ctx c, onItemMoved_dragging ctx c, ?_⟩
  intro hs h0 h1
  rw [onItemMoved_source, onItemMoved_sink, if_pos hs]
  refine ⟨rfl, ?_⟩
  split_ifs
  · rw [h1, h0]
  · rfl

/-- Witness of C7: node 1, bound at the source, moves by `(30, 40)`; the source
follows to `(180, 40)` and the sink stays at `(200, 10)`. -/
theorem onItemMoved_spec_witness :
    (sampleBound.onItemMoved sampleContextMoved)._source = ⟨180, 40⟩
      ∧ (sampleBound.onItemMoved sampleContextMoved)._source
          = sampleContextMoved.anchor sampleBound._sourceAddress .SOURCE
      ∧ (sampleBound.onItemMoved sampleContextMoved)._sink = sampleBound._sink :=
  ⟨by norm_num [onItemMoved_source, sampleBound, sampleContextMoved, sampleContext, Context.anchor,
      Address.bound, QUuid.isNull, QPointF.add_def],
    (onItemMoved_spec sampleContextMoved sampleContext sampleBound).2.2.2
      (by decide)
      (by norm_num [sampleBound, sampleContext, Context.anchor])
      (by norm_num [sampleBound, sampleContextMoved, sampleContext, Context.anchor])⟩

/-- C8: for a fixed layout `onItemMoved` is idempotent, any positive number of
notifications gives the state of a single one, and a notification under the
layout `ctx` after any sequence of earlier notifications under any layouts gives
the state of a single notification under `ctx`: the result depends on the
bindings and the current layout only. -/
theorem onItemMoved_idempotent (ctx : Context) (c : Connection) :
    (c.onItemMoved ctx).onItemMoved ctx = c.onItemMoved ctx
      ∧ (∀ n : Nat, (fun s : Connection => s.onItemMoved ctx)^[n + 1] c = c.onItemMoved ctx)
      ∧ (∀ earlier : List Context,
          (earlier.foldl (fun s k => s.onItemMoved k) c).onItemMoved ctx = c.onItemMoved ctx) := by
  refine ⟨onItemMoved_absorb ctx ctx c, ?_, ?_⟩
  · intro n
    induction n with
    | zero => rfl
    | succ k ih =>
      rw [Function.iterate_succ_apply', ih]
      exact onItemMoved_absorb ctx ctx c
  · intro earlier
    induction earlier generalizing c with
    | nil => rfl
    | cons k ks ih =>
      rw [List.foldl_cons, ih (c.onItemMoved k)]
      exact onItemMoved_absorb ctx k c

/-! ## Pointer press: mousePressEvent -/

/-- C3, as stated, fails for the sink: on a connection whose two endpoints
coincide at `(150, 0)`, as they do once a connection is constructed and the
pointer released on the spot, a press exactly at the position of the sink is a press at
the position of the source too, and the handler sets `_dragging = SOURCE`, not
`SINK`. -/
theorem mousePressEvent_at_sink_counterexample :
    (Connection.construct sampleContext (⟨1⟩, 0) .SINK).mouseReleaseEvent sampleContext
        (pointerAt ⟨150, 0⟩)
        = Outcome.returned (sampleDangling, pointerAt ⟨150, 0⟩)
      ∧ (pointerAt ⟨150, 0⟩).pos = sampleDangling.endPoint .SINK
      ∧ (sampleDangling.mousePressEvent (pointerAt ⟨150, 0⟩)).1._dragging = EndType.SOURCE
      ∧ (sampleDangling.mousePressEvent (pointerAt ⟨150, 0⟩)).1._dragging ≠ EndType.SINK := by
  have h : withinTolerance (pointerAt ⟨150, 0⟩).pos sampleDangling._source := by
    rw [withinTolerance_iff]
    norm_num [pointerAt, sampleDangling, QPointF.sub_def, QPointF.dotProduct]
  rw [mousePressEvent_source sampleDangling (pointerAt ⟨150, 0⟩) h,
    mouseReleaseEvent_none sampleContext _ (pointerAt ⟨150, 0⟩) rfl]
  refine ⟨?_, rfl, rfl, by decide⟩
  norm_num [Connection.construct, sampleContext, Context.anchor, sampleDangling, pointerAt]

/-- C3, amended: under every arithmetic in which a point is near itself (exact
arithmetic and binary64 are such), a press exactly at the position of the source
claims the source (`_dragging = SOURCE`, the event is left as delivered, not
ignored), whatever the position of the sink. A press exactly at the position of
the sink claims the sink when the handler's test for the source fails there,
that is when the computed `sqrt(dotProduct(diff, diff))` for
`diff = sink - source` is not below the tolerance, and claims the source when
that test succeeds; in exact arithmetic the test succeeds exactly when the sink
is at a Euclidean distance below 20 from the source. -/
theorem mousePressEvent_at_endpoint (A : Arith) (hA : A.AtRest) (c : Connection)
    (event : QGraphicsSceneMouseEvent) :
    (event.pos = c._source →
        (c.mousePressEventIn A event).1._dragging = EndType.SOURCE
          ∧ (c.mousePressEventIn A event).2 = event)
      ∧ (event.pos = c._sink → A.near c._sink c._source = false →
        (c.mousePressEventIn A event).1._dragging = EndType.SINK
          ∧ (c.mousePressEventIn A event).2 = event)
      ∧ (event.pos = c._sink → A.near c._sink c._source = true →
        (c.mousePressEventIn A event).1._dragging = EndType.SOURCE
          ∧ (c.mousePressEventIn A event).2 = event)
      ∧ (Arith.exact.near c._sink c._source = true ↔ withinTolerance c._sink c._source) := by
  refine ⟨fun h => ?_, fun h hfar => ?_, fun h hnear => ?_, near_exact_iff _ _⟩
  · rw [mousePressEventIn_source A c event (h ▸ near_self A hA c._source)]
    exact ⟨rfl, rfl⟩
  · rw [mousePressEventIn_sink A c event (h ▸ hfar) (h ▸ near_self A hA c._sink)]
    exact ⟨rfl, rfl⟩
  · rw [mousePressEventIn_source A c event (h ▸ hnear)]
    exact ⟨rfl, rfl⟩

/-- Witness of the amended C3: in binary64 arithmetic, on the connection with
source at `(150, 0)` and sink at `(200, 10)`, a press at each endpoint claims
that endpoint. -/
theorem mousePressEvent_at_endpoint_witness :
    Arith.binary64.AtRest
      ∧ Arith.binary64.near sampleBound._sink sampleBound._source = false
      ∧ ((sampleBound.mousePressEventIn Arith.binary64 (pointerAt ⟨150, 0⟩)).1._dragging
            = EndType.SOURCE
        ∧ (sampleBound.mousePressEventIn Arith.binary64 (pointerAt ⟨150, 0⟩)).2
            = pointerAt ⟨150, 0⟩)
      ∧ ((sampleBound.mousePressEventIn Arith.binary64 (pointerAt ⟨200, 10⟩)).1._dragging
            = EndType.SINK
        ∧ (sampleBound.mousePressEventIn Arith.binary64 (pointerAt ⟨200, 10⟩)).2
            = pointerAt ⟨200, 10⟩) :=
  ⟨binary64_atRest, by decide!,
    (mousePressEvent_at_endpoint Arith.binary64 binary64_atRest sampleBound
      (pointerAt ⟨150, 0⟩)).1 rfl,
    (mousePressEvent_at_endpoint Arith.binary64 binary64_atRest sampleBound
      (pointerAt ⟨200, 10⟩)).2.1 rfl (by decide!)⟩

/-- C5 on the code: on the connection bound at both ends and at rest, a press at
the position of the bound source claims the source, in binary64 and in exact
arithmetic alike, and the source binding `(1, 0)` is still present afterwards.
The handler writes `_dragging` only; `setDragging(SOURCE)`, the operation that
takes up an end, clears that binding. -/
theorem mousePressEvent_leaves_binding :
    (sampleBound.address .SOURCE).bound = true
      ∧ (pointerAt ⟨150, 0⟩).pos = sampleBound.endPoint .SOURCE
      ∧ (sampleBound.mousePressEventIn Arith.binary64 (pointerAt ⟨150, 0⟩)).1._dragging
          = EndType.SOURCE
      ∧ (sampleBound.mousePressEventIn Arith.binary64 (pointerAt ⟨150, 0⟩)).1.address .SOURCE
          = (⟨1⟩, 0)
      ∧ ((sampleBound.mousePressEventIn Arith.binary64 (pointerAt ⟨150, 0⟩)).1.address
          .SOURCE).bound = true
      ∧ sampleBound.mousePressEvent (pointerAt ⟨150, 0⟩)
          = sampleBound.mousePressEventIn Arith.binary64 (pointerAt ⟨150, 0⟩)
      ∧ ((sampleBound.setDragging .SOURCE).address .SOURCE).bound = false := by
  decide!

/-! ## A whole gesture -/

/-- C6, as stated, fails in the arithmetic of the program. In the fractional
layout a connection is constructed from port 0 of node 1, at `(0.1, 0.1)`, with
the sink dragged, and one pointer move carries the sink to `fineSink`, farther
than 20 from the source by the Euclidean distance of the two positions. The
release over the empty canvas leaves the source bound to `(1, 0)` and the sink
unbound. For the press at the position of the sink the handler computes
`diff = sink - source`, rounded, and `sqrt(dotProduct(diff, diff))`, which comes
out as `20 - 2 ^ (-48)`, below the tolerance: the press claims the source.
`connectToNode((2, 1))` then binds the source end: the final source binding is
`(2, 1)`, not `(1, 0)`, and the sink is still unbound. -/
theorem end_to_end_counterexample :
    ((Connection.construct sampleContextFine (⟨1⟩, 0) .SINK).dragByIn Arith.binary64
        fineMoves)._source = fineSource
      ∧ ((Connection.construct sampleContextFine (⟨1⟩, 0) .SINK).dragByIn Arith.binary64
        fineMoves)._sink = fineSink
      ∧ beyondTolerance fineSink fineSource
      ∧ ((Connection.construct sampleContextFine (⟨1⟩, 0) .SINK).dragByIn Arith.binary64
          fineMoves).mouseReleaseEvent sampleContextFine (pointerAt fineSink)
        = Outcome.returned
            ({ _source := fineSource, _sink := fineSink, _sourceAddress := (⟨1⟩, 0),
               _sinkAddress := Address.default, _dragging := .NONE, itemMoved := [⟨1⟩] },
              pointerAt fineSink)
      ∧ Arith.binary64.dotProduct (Arith.binary64.psub fineSink fineSource)
          (Arith.binary64.psub fineSink fineSource) = 3518437208883199 / 8796093022208
      ∧ Binary64.sqrt (3518437208883199 / 8796093022208) = 20 - 1 / 2 ^ 48
      ∧ (Connection.mousePressEventIn Arith.binary64
          { _source := fineSource, _sink := fineSink, _sourceAddress := (⟨1⟩, 0),
            _sinkAddress := Address.default, _dragging := .NONE, itemMoved := [⟨1⟩] }
          (pointerAt fineSink)).1._dragging = EndType.SOURCE
      ∧ Connection.connectToNode sampleContextFine
          { _source := fineSource, _sink := fineSink, _sourceAddress := (⟨1⟩, 0),
            _sinkAddress := Address.default, _dragging := .SOURCE, itemMoved := [⟨1⟩] }
          (⟨2⟩, 1)
        = Outcome.returned
            { _source := sampleContextFine.anchor (⟨2⟩, 1) .SOURCE, _sink := fineSink,
              _sourceAddress := (⟨2⟩, 1), _sinkAddress := Address.default,
              _dragging := .NONE, itemMoved := [⟨1⟩] } := by
  refine ⟨by decide!, by decide!, ?_, by decide!, by decide!, by decide!, by decide!,
    by decide!⟩
  rw [beyondTolerance_iff]
  decide!

/-- C6, amended: under every arithmetic in which a point is near itself, for all
nodes `A` and `B` and every layout: construct from the origin `(A, 0)` with the
sink as dragged end, so that the source is bound to `(A, 0)`; move the pointer,
ending where the handler's grab test for the source fails at the position of
the sink, that is where the computed `sqrt(dotProduct(diff, diff))` for
`diff = sink - source` is not below the tolerance (in exact arithmetic: where
the sink is at a distance of 20 or more from the source); release where the
scene has no node, after which the source is still bound to `(A, 0)`, the sink
is unbound and `_dragging = NONE`; press at the position of the sink, which
claims the sink; call `connectToNode (B, 1)`. Every step returns, and in the
final state the source binding is `(A, 0)`, the sink binding is `(B, 1)`,
`_dragging = NONE` and the sink sits at the anchor of `(B, 1)` in the role
`SINK`. -/
theorem end_to_end_scenario (A : Arith) (hA : A.AtRest) (ctx : Context) (nodeA nodeB : QUuid)
    (moves : List QGraphicsSceneMouseEvent) (release press : QGraphicsSceneMouseEvent)
    (hfar : A.near ((Connection.construct ctx (nodeA, 0) .SINK).dragByIn A moves)._sink
      ((Connection.construct ctx (nodeA, 0) .SINK).dragByIn A moves)._source = false)
    (hempty : locateNodeAt ctx (ctx.mapToScene release.pos) = none)
    (hpress : press.pos = ((Connection.construct ctx (nodeA, 0) .SINK).dragByIn A moves)._sink) :
    (Connection.construct ctx (nodeA, 0) .SINK)._sourceAddress = (nodeA, 0)
      ∧ (Connection.construct ctx (nodeA, 0) .SINK)._dragging = EndType.SINK
      ∧ ∃ released pressed final : Connection,
          ((Connection.construct ctx (nodeA, 0) .SINK).dragByIn A moves).mouseReleaseEvent ctx
              release
              = Outcome.returned (released, { release with accepted := true })
            ∧ released._sourceAddress = (nodeA, 0)
            ∧ released._sinkAddress.bound = false
            ∧ released._dragging = EndType.NONE
            ∧ released.mousePressEventIn A press = (pressed, press)
            ∧ pressed._dragging = EndType.SINK
            ∧ pressed.connectToNode ctx (nodeB, 1) = Outcome.returned final
            ∧ final._sourceAddress = (nodeA, 0)
            ∧ final._sinkAddress = (nodeB, 1)
            ∧ final._dragging = EndType.NONE
            ∧ final._sink = ctx.anchor (nodeB, 1) .SINK := by
  obtain ⟨_, hsrc, hsa, hka⟩ :=
    dragByIn_sink_frame A moves (Connection.construct ctx (nodeA, 0) .SINK) rfl
  refine ⟨rfl, rfl,
    { (Connection.construct ctx (nodeA, 0) .SINK).dragByIn A moves with _dragging := .NONE },
    { (Connection.construct ctx (nodeA, 0) .SINK).dragByIn A moves with _dragging := .SINK }, _,
    mouseReleaseEvent_none ctx _ release hempty, hsa, ?_, rfl, ?_, rfl,
    connectToNode_sink ctx _ (nodeB, 1) rfl, hsa, rfl, rfl, rfl⟩
  · show (((Connection.construct ctx (nodeA, 0) .SINK).dragByIn A moves)._sinkAddress).bound
      = false
    rw [hka]
    rfl
  · apply mousePressEventIn_sink
    · rw [hpress]
      exact hfar
    · rw [hpress]
      exact near_self A hA _

/-- Witness of the amended C6: in binary64 arithmetic on the sample layout, a
connection is dragged out of port 0 of node 1 to `(250, 60)`, released there on
the empty canvas, taken up again at `(250, 60)` and connected to port 1 of node
2, whose sink-side anchor is `(200, 10)`. -/
theorem end_to_end_scenario_witness :
    ((Connection.construct sampleContext (⟨1⟩, 0) .SINK).dragByIn Arith.binary64 sampleMoves)._sink
        = ⟨250, 60⟩
      ∧ Arith.binary64.near
          ((Connection.construct sampleContext (⟨1⟩, 0) .SINK).dragByIn Arith.binary64
            sampleMoves)._sink
          ((Connection.construct sampleContext (⟨1⟩, 0) .SINK).dragByIn Arith.binary64
            sampleMoves)._source = false
      ∧ ∃ released pressed final : Connection,
          ((Connection.construct sampleContext (⟨1⟩, 0) .SINK).dragByIn Arith.binary64
              sampleMoves).mouseReleaseEvent sampleContext (pointerAt ⟨250, 60⟩)
              = Outcome.returned (released, { pointerAt ⟨250, 60⟩ with accepted := true })
            ∧ released._sourceAddress = (⟨1⟩, 0)
            ∧ released._sinkAddress.bound = false
            ∧ released._dragging = EndType.NONE
            ∧ released.mousePressEventIn Arith.binary64 (pointerAt ⟨250, 60⟩)
                = (pressed, pointerAt ⟨250, 60⟩)
            ∧ pressed._dragging = EndType.SINK
            ∧ pressed.connectToNode sampleContext (⟨2⟩, 1) = Outcome.returned final
            ∧ final._sourceAddress = (⟨1⟩, 0)
            ∧ final._sinkAddress = (⟨2⟩, 1)
            ∧ final._dragging = EndType.NONE
            ∧ final._sink = sampleContext.anchor (⟨2⟩, 1) .SINK :=
  ⟨by decide!, by decide!,
    (end_to_end_scenario Arith.binary64 binary64_atRest sampleContext ⟨1⟩ ⟨2⟩ sampleMoves
      (pointerAt ⟨250, 60⟩) (pointerAt ⟨250, 60⟩) (by decide!) rfl (by decide!)).2.2⟩

/-! ## The topmost node under a point -/

/-- The first element of the filtered list is the first node of the list. -/
theorem firstNode_eq_find (items : List QGraphicsItem) :
    (match items.filter (fun item => item.dynamicCastNode.isSome) with
      | [] => none
      | front :: _ => front.dynamicCastNode)
      = (items.find? (fun item => item.dynamicCastNode.isSome)).bind
          QGraphicsItem.dynamicCastNode := by
  induction items with
  | nil => rfl
  | cons item rest ih =>
    cases item with
    | node n => simp [List.filter, List.find?, QGraphicsItem.dynamicCastNode]
    | other tag => simpa [List.filter, List.find?, QGraphicsItem.dynamicCastNode] using ih

theorem locateNodeAt_eq_find (ctx : Context) (scenePoint : QPointF) :
    locateNodeAt ctx scenePoint
      = ((ctx.items scenePoint).find? (fun item => item.dynamicCastNode.isSome)).bind
          QGraphicsItem.dynamicCastNode :=
  firstNode_eq_find (ctx.items scenePoint)

theorem find_node_none_iff (items : List QGraphicsItem) :
    (items.find? (fun item => item.dynamicCastNode.isSome)).bind QGraphicsItem.dynamicCastNode
        = none
      ↔ ∀ item ∈ items, item.dynamicCastNode = none := by
  induction items with
  | nil => simp
  | cons item rest ih =>
    cases item with
    | node n => simp [List.find?, QGraphicsItem.dynamicCastNode]
    | other tag => simpa [List.find?, QGraphicsItem.dynamicCastNode] using ih

theorem find_node_skip (pre rest : List QGraphicsItem)
    (hpre : ∀ item ∈ pre, item.dynamicCastNode = none) :
    ((pre ++ rest).find? (fun item => item.dynamicCastNode.isSome)).bind
        QGraphicsItem.dynamicCastNode
      = (rest.find? (fun item => item.dynamicCastNode.isSome)).bind
          QGraphicsItem.dynamicCastNode := by
  induction pre with
  | nil => rfl
  | cons item pre ih =>
    have hitem : item.dynamicCastNode = none := hpre item (List.mem_cons_self _ _)
    have hrest : ∀ i ∈ pre, i.dynamicCastNode = none :=
      fun i hi => hpre i (List.mem_cons_of_mem _ hi)
    simp only [List.cons_append, List.find?, hitem, Option.isSome_none]
    exact ih hrest

/-- C12: for every list of items that the scene query returns, `locateNodeAt`
gives the first item of the list that is a node (find-first with the is-node
test), and gives none exactly when no item of the list is a node. With a node
`A` preceded by items that are not nodes, and a node `B` anywhere behind it,
whatever lies in between and after, the result is `A`. -/
theorem locateNodeAt_spec (ctx : Context) (scenePoint : QPointF) :
    locateNodeAt ctx scenePoint
        = ((ctx.items scenePoint).find? (fun item => item.dynamicCastNode.isSome)).bind
            QGraphicsItem.dynamicCastNode
      ∧ (locateNodeAt ctx scenePoint = none
          ↔ ∀ item ∈ ctx.items scenePoint, item.dynamicCastNode = none)
      ∧ (∀ (A B : Node) (pre mid post : List QGraphicsItem),
          (∀ item ∈ pre, item.dynamicCastNode = none) →
          ctx.items scenePoint = pre ++ [.node A] ++ mid ++ [.node B] ++ post →
          locateNodeAt ctx scenePoint = some A) := by
  refine ⟨locateNodeAt_eq_find ctx scenePoint, ?_, ?_⟩
  · rw [locateNodeAt_eq_find]
    exact find_node_none_iff _
  · intro A B pre mid post hpre hitems
    rw [locateNodeAt_eq_find, hitems]
    have hsplit : pre ++ [QGraphicsItem.node A] ++ mid ++ [QGraphicsItem.node B] ++ post
        = pre ++ (QGraphicsItem.node A :: (mid ++ [QGraphicsItem.node B] ++ post)) := by
      simp
    rw [hsplit, find_node_skip pre _ hpre]
    rfl

/-- Witness of C12: with node 1 on top of node 2 and other items around them,
the node located is node 1. -/
theorem locateNodeAt_spec_witness :
    locateNodeAt sampleContextOverlap ⟨0, 0⟩ = some ⟨⟨1⟩⟩ :=
  (locateNodeAt_spec sampleContextOverlap ⟨0, 0⟩).2.2 ⟨⟨1⟩⟩ ⟨⟨2⟩⟩ [.other 7] [.other 8] [.other 9]
    (by decide) rfl

/-! ## Pointer move: mouseMoveEvent -/

/-- C14, as stated, fails in the arithmetic of the program. The sink of a
connection just constructed is dragged and sits at `(150, 0)`. A move by
`(0.7, 0)` followed by a second move by `(0.7, 0)` puts it at `151.39999999999998`
(`0x1.2ecccccccccccp+7`), while a single move by `(1.4, 0)`, whose delta is the
sum of the two deltas both as computed and exactly, puts it at `151.4`
(`0x1.2eccccccccccdp+7`): each `+=` rounds. -/
theorem mouseMoveEvent_additivity_counterexample :
    (Connection.construct sampleContext (⟨1⟩, 0) .SINK)._dragging = EndType.SINK
      ∧ (Connection.construct sampleContext (⟨1⟩, 0) .SINK)._sink = ⟨150, 0⟩
      ∧ Arith.binary64.psub moveByFourteenTenths.pos moveByFourteenTenths.lastPos
          = Arith.binary64.padd
              (Arith.binary64.psub moveBySevenTenths.pos moveBySevenTenths.lastPos)
              (Arith.binary64.psub moveBySevenTenths.pos moveBySevenTenths.lastPos)
      ∧ moveByFourteenTenths.pos - moveByFourteenTenths.lastPos
          = (moveBySevenTenths.pos - moveBySevenTenths.lastPos)
            + (moveBySevenTenths.pos - moveBySevenTenths.lastPos)
      ∧ (((Connection.construct sampleContext (⟨1⟩, 0) .SINK).mouseMoveEventIn Arith.binary64
            moveBySevenTenths).1.mouseMoveEventIn Arith.binary64 moveBySevenTenths).1._sink
          = ⟨1331728483562291 / 8796093022208, 0⟩
      ∧ ((Connection.construct sampleContext (⟨1⟩, 0) .SINK).mouseMoveEventIn Arith.binary64
            moveByFourteenTenths).1._sink
          = ⟨5326913934249165 / 35184372088832, 0⟩
      ∧ (((Connection.construct sampleContext (⟨1⟩, 0) .SINK).mouseMoveEventIn Arith.binary64
            moveBySevenTenths).1.mouseMoveEventIn Arith.binary64 moveBySevenTenths).1
          ≠ ((Connection.construct sampleContext (⟨1⟩, 0) .SINK).mouseMoveEventIn Arith.binary64
            moveByFourteenTenths).1 := by
  decide!

/-- C14, amended: under every arithmetic, with `_dragging = e`, `e` not `NONE`,
`mouseMoveEvent` sets the position of end `e` to the computed sum of that
position and the computed delta `pos - lastPos`, and leaves the position of the
other end, both bindings and `_dragging` unchanged; with `_dragging = NONE` the
whole state is unchanged. A move by `d1` followed by a move by `d2` gives the
state of a single move by the sum of the two deltas wherever the additions at
the dragged end associate, `(s + d1) + d2 = s + (d1 + d2)` as computed; in
exact arithmetic they always do, in binary64 each `+=` rounds and they need
not. -/
theorem mouseMoveEvent_spec (A : Arith) (c : Connection) (event : QGraphicsSceneMouseEvent) :
    (∀ e : EndType, e ≠ EndType.NONE → c._dragging = e →
        (c.mouseMoveEventIn A event).1.endPoint e
            = A.padd (c.endPoint e) (A.psub event.pos event.lastPos)
          ∧ (c.mouseMoveEventIn A event).1.endPoint e.opposite = c.endPoint e.opposite
          ∧ (c.mouseMoveEventIn A event).1._sourceAddress = c._sourceAddress
          ∧ (c.mouseMoveEventIn A event).1._sinkAddress = c._sinkAddress
          ∧ (c.mouseMoveEventIn A event).1._dragging = c._dragging)
      ∧ (c._dragging = EndType.NONE → (c.mouseMoveEventIn A event).1 = c)
      ∧ (∀ first second whole : QGraphicsSceneMouseEvent,
          A.psub whole.pos whole.lastPos
              = A.padd (A.psub first.pos first.lastPos) (A.psub second.pos second.lastPos) →
          A.padd (A.padd (c.endPoint c._dragging) (A.psub first.pos first.lastPos))
                (A.psub second.pos second.lastPos)
              = A.padd (c.endPoint c._dragging)
                  (A.padd (A.psub first.pos first.lastPos)
                    (A.psub second.pos second.lastPos)) →
          ((c.mouseMoveEventIn A first).1.mouseMoveEventIn A second).1
            = (c.mouseMoveEventIn A whole).1)
      ∧ (∀ first second whole : QGraphicsSceneMouseEvent,
          whole.pos - whole.lastPos
              = (first.pos - first.lastPos) + (second.pos - second.lastPos) →
          ((c.mouseMoveEventIn Arith.exact first).1.mouseMoveEventIn Arith.exact second).1
            = (c.mouseMoveEventIn Arith.exact whole).1) := by
  refine ⟨fun e he hdrag => ?_, fun hnone => ?_, fun first second whole hsum hassoc => ?_,
    fun first second whole hsum => ?_⟩
  · cases e with
    | SOURCE =>
      rw [mouseMoveEventIn_source A c event hdrag]
      exact ⟨rfl, rfl, rfl, rfl, rfl⟩
    | SINK =>
      rw [mouseMoveEventIn_sink A c event hdrag]
      exact ⟨rfl, rfl, rfl, rfl, rfl⟩
    | NONE => exact absurd rfl he
  · rw [mouseMoveEventIn_none A c event hnone]
  · cases hdrag : c._dragging with
    | SOURCE =>
      rw [hdrag] at hassoc
      simp only [Connection.mouseMoveEventIn, hdrag, hsum]
      exact congrArg (fun q => ({ c with _source := q, _dragging := .SOURCE } : Connection))
        hassoc
    | SINK =>
      rw [hdrag] at hassoc
      simp only [Connection.mouseMoveEventIn, hdrag, hsum]
      exact congrArg (fun q => ({ c with _sink := q, _dragging := .SINK } : Connection))
        hassoc
    | NONE =>
      simp only [Connection.mouseMoveEventIn, hdrag]
  · have hsum1 : Arith.exact.psub whole.pos whole.lastPos
        = Arith.exact.padd (Arith.exact.psub first.pos first.lastPos)
            (Arith.exact.psub second.pos second.lastPos) := hsum
    cases hdrag : c._dragging with
    | SOURCE =>
      simp only [Connection.mouseMoveEventIn, hdrag, hsum1]
      exact congrArg (fun q => ({ c with _source := q, _dragging := .SOURCE } : Connection))
        (pointAdd_assoc c._source (first.pos - first.lastPos) (second.pos - second.lastPos))
    | SINK =>
      simp only [Connection.mouseMoveEventIn, hdrag, hsum1]
      exact congrArg (fun q => ({ c with _sink := q, _dragging := .SINK } : Connection))
        (pointAdd_assoc c._sink (first.pos - first.lastPos) (second.pos - second.lastPos))
    | NONE =>
      simp only [Connection.mouseMoveEventIn, hdrag]

/-- Witness of the amended C14: in binary64 arithmetic the sink of a connection
just constructed at `(150, 0)` is moved by `(100, 60)` to `(250, 60)`; the source
stays at `(150, 0)`. -/
theorem mouseMoveEvent_spec_witness :
    ((Connection.construct sampleContext (⟨1⟩, 0) .SINK).mouseMoveEventIn Arith.binary64
          { pos := ⟨250, 60⟩, lastPos := ⟨150, 0⟩, accepted := true }).1._sink = ⟨250, 60⟩
      ∧ ((Connection.construct sampleContext (⟨1⟩, 0) .SINK).mouseMoveEventIn Arith.binary64
          { pos := ⟨250, 60⟩, lastPos := ⟨150, 0⟩, accepted := true }).1._source
          = (Connection.construct sampleContext (⟨1⟩, 0) .SINK)._source :=
  have h := (mouseMoveEvent_spec Arith.binary64
    (Connection.construct sampleContext (⟨1⟩, 0) .SINK)
    { pos := ⟨250, 60⟩, lastPos := ⟨150, 0⟩, accepted := true }).1 .SINK (by decide) rfl
  ⟨h.1.trans (by decide!), h.2.1⟩

/-! ## Pointer release: mouseReleaseEvent -/

/-- C18: a run of `mouseReleaseEvent` always leaves the connection with
`_dragging = NONE`. The handler returns, with the event accepted, in every state
in which a drag is in progress, and in every state at all when nodes call
`connectToNode` only during a drag; the one run that does not return is the
assertion of `connectToNode` tripping when a node calls it on a connection that
is not dragged, and `_dragging` is `NONE` there too. When no node is located
under the release point, or the located node does not call `connectToNode`, the
connection is kept with both bindings and both positions exactly as before:
only `_dragging` is written. -/
theorem mouseReleaseEvent_policy (ctx : Context) (c : Connection)
    (event : QGraphicsSceneMouseEvent) :
    (c.mouseReleaseEvent ctx event).state._dragging = EndType.NONE
      ∧ ((c._dragging ≠ EndType.NONE ∨ ctx.respectsDrag) →
          ∃ c1 : Connection,
            c.mouseReleaseEvent ctx event
                = Outcome.returned (c1, { event with accepted := true })
              ∧ c1._dragging = EndType.NONE)
      ∧ ((locateNodeAt ctx (ctx.mapToScene event.pos) = none
            ∨ ∃ n, locateNodeAt ctx (ctx.mapToScene event.pos) = some n
                ∧ ctx.tryConnect n c = none) →
          c.mouseReleaseEvent ctx event
            = Outcome.returned ({ c with _dragging := .NONE }, { event with accepted := true })) := by
  refine ⟨?_, fun hdrag => ?_, fun hidle => ?_⟩
  · rcases mouseReleaseEvent_cases ctx c event with
      ⟨_, h⟩ | ⟨n, address, c1, _, _, _, h⟩ | ⟨n, address, _, _, hnone, h⟩
    · rw [h]; rfl
    · rw [h]; rfl
    · rw [h]; exact hnone
  · rcases mouseReleaseEvent_cases ctx c event with
      ⟨_, h⟩ | ⟨n, address, c1, _, _, _, h⟩ | ⟨n, address, _, htry, hnone, _⟩
    · exact ⟨_, h, rfl⟩
    · exact ⟨_, h, rfl⟩
    · rcases hdrag with hd | hrespect
      · exact absurd hnone hd
      · exact absurd hnone (hrespect n c address htry)
  · rcases hidle with hnone | ⟨n, hloc, hreject⟩
    · exact mouseReleaseEvent_none ctx c event hnone
    · exact mouseReleaseEvent_reject ctx c event n hloc hreject

/-- Witness of C18: the connection bound at both ends and at rest is released over
the empty canvas and stays as it is; a connection whose sink is dragged is
released over node 1, which binds it, and the handler returns with
`_dragging = NONE`. -/
theorem mouseReleaseEvent_policy_witness :
    sampleBound.mouseReleaseEvent sampleContext (pointerAt ⟨0, 0⟩)
        = Outcome.returned
            ({ sampleBound with _dragging := .NONE }, { pointerAt ⟨0, 0⟩ with accepted := true })
      ∧ ∃ c1 : Connection,
          (Connection.construct sampleContext (⟨1⟩, 0) .SINK).mouseReleaseEvent
              sampleContextOverlap (pointerAt ⟨0, 0⟩)
              = Outcome.returned (c1, { pointerAt ⟨0, 0⟩ with accepted := true })
            ∧ c1._dragging = EndType.NONE :=
  ⟨(mouseReleaseEvent_policy sampleContext sampleBound (pointerAt ⟨0, 0⟩)).2.2 (Or.inl rfl),
    (mouseReleaseEvent_policy sampleContextOverlap
      (Connection.construct sampleContext (⟨1⟩, 0) .SINK) (pointerAt ⟨0, 0⟩)).2.1
      (Or.inl (by decide))⟩

/-! ## From free to bound -/

/-- C13: an end whose binding is absent still has an absent binding after
`setDragging` with any argument, after a press, after a move, after
`onItemMoved`, and after a release under which no node is located or the located
node does not call `connectToNode`; such a release returns. -/
theorem free_stays_free (ctx : Context) (c : Connection) (e : EndType)
    (hfree : (c.address e).bound = false) :
    (∀ dragging : EndType, ((c.setDragging dragging).address e).bound = false)
      ∧ (∀ event : QGraphicsSceneMouseEvent,
          ((c.mousePressEvent event).1.address e).bound = false)
      ∧ (∀ event : QGraphicsSceneMouseEvent,
          ((c.mouseMoveEvent event).1.address e).bound = false)
      ∧ ((c.onItemMoved ctx).address e).bound = false
      ∧ (∀ event : QGraphicsSceneMouseEvent,
          (locateNodeAt ctx (ctx.mapToScene event.pos) = none
            ∨ ∃ n, locateNodeAt ctx (ctx.mapToScene event.pos) = some n
                ∧ ctx.tryConnect n c = none) →
          ∃ c1 : Connection,
            c.mouseReleaseEvent ctx event
                = Outcome.returned (c1, { event with accepted := true })
              ∧ (c1.address e).bound = false) := by
  refine ⟨fun dragging => ?_, fun event => ?_, fun event => ?_, ?_, fun event hidle => ?_⟩
  · rcases setDragging_address c dragging e with h | h
    · rw [h]; exact hfree
    · rw [h]; rfl
  · rw [mousePressEvent_address]; exact hfree
  · rw [mouseMoveEvent_address]; exact hfree
  · rw [onItemMoved_address]; exact hfree
  · have hrel : c.mouseReleaseEvent ctx event
        = Outcome.returned ({ c with _dragging := .NONE }, { event with accepted := true }) := by
      rcases hidle with hnone | ⟨n, hloc, hreject⟩
      · exact mouseReleaseEvent_none ctx c event hnone
      · exact mouseReleaseEvent_reject ctx c event n hloc hreject
    refine ⟨_, hrel, ?_⟩
    cases e <;> exact hfree

/-- Witness of C13: the free sink of the dangling connection stays free under a
press at `(150, 0)` and under a release on the empty canvas. -/
theorem free_stays_free_witness :
    ((sampleDangling.mousePressEvent (pointerAt ⟨150, 0⟩)).1.address .SINK).bound = false
      ∧ ∃ c1 : Connection,
          sampleDangling.mouseReleaseEvent sampleContext (pointerAt ⟨150, 0⟩)
              = Outcome.returned (c1, { pointerAt ⟨150, 0⟩ with accepted := true })
            ∧ (c1.address .SINK).bound = false :=
  ⟨(free_stays_free sampleContext sampleDangling .SINK (by decide)).2.1 (pointerAt ⟨150, 0⟩),
    (free_stays_free sampleContext sampleDangling .SINK (by decide)).2.2.2.2
      (pointerAt ⟨150, 0⟩) (Or.inl rfl)⟩

/-! ## Unbound ends of reachable states -/

/-- C11, as stated, fails: construct a connection from port 0 of node 1 with the
sink dragged, take up the bound source end with `setDragging(SOURCE)`, release
over the empty canvas. Every step returns, and the state reached has
`_dragging = NONE` and both bindings absent: both ends are unbound and not
dragged. Nothing in `Connection.cpp` discards a connection. -/
theorem idle_invariant_counterexample :
    (Connection.construct sampleContext (⟨1⟩, 0) .SINK).run
        [(sampleContext, Op.setDragging .SOURCE),
          (sampleContext, Op.mouseReleaseEvent (pointerAt ⟨150, 0⟩))]
        = Outcome.returned sampleOrphan
      ∧ sampleOrphan.idleFree .SOURCE = true
      ∧ sampleOrphan.idleFree .SINK = true
      ∧ sampleOrphan._dragging = EndType.NONE
      ∧ sampleOrphan._sourceAddress.bound = false
      ∧ sampleOrphan._sinkAddress.bound = false := by
  refine ⟨?_, by decide, by decide, rfl, by decide, by decide⟩
  have hrel := mouseReleaseEvent_none sampleContext
    ((Connection.construct sampleContext (⟨1⟩, 0) .SINK).setDragging .SOURCE)
    (pointerAt ⟨150, 0⟩) rfl
  simp only [Connection.run, Connection.perform, hrel]
  norm_num [Connection.construct, Connection.setDragging, sampleContext, Context.anchor,
    sampleOrphan]

/-- C11, amended: start from a connection constructed with a dragging end other
than `NONE` at an origin whose node identifier is not null, and run any
sequence of `setDragging`, `connectToNode`, press, move, release and
`onItemMoved`, under any arithmetic, in which no `setDragging` takes the last
binding away (a call `setDragging(e)`, `e` not `NONE`, is made while the other
end is bound) and every node bound to has a non-null identifier. In every state
reached some end is bound: at most one end is unbound, the two ends are never
both unbound and not dragged, and no such state with `_dragging = NONE` has
both bindings absent. -/
theorem run_keeps_a_binding (A : Arith) (ctx0 : Context) (address : Address) (d : EndType)
    (ops : List (Context × Op)) (c : Connection)
    (hd : d ≠ EndType.NONE) (haddr : address.bound = true)
    (hops : (Connection.construct ctx0 address d).runKeepsBinding A ops)
    (hrun : (Connection.construct ctx0 address d).runIn A ops = Outcome.returned c) :
    (c._sourceAddress.bound = true ∨ c._sinkAddress.bound = true)
      ∧ ¬ (c.idleFree .SOURCE = true ∧ c.idleFree .SINK = true)
      ∧ ¬ (c._dragging = EndType.NONE
            ∧ c._sourceAddress.bound = false ∧ c._sinkAddress.bound = false) := by
  have hstart : (Connection.construct ctx0 address d)._sourceAddress.bound = true
      ∨ (Connection.construct ctx0 address d)._sinkAddress.bound = true := by
    cases d with
    | SOURCE => exact Or.inr haddr
    | SINK => exact Or.inl haddr
    | NONE => exact absurd rfl hd
  have hkept := runIn_keeps_some_bound A ops _ c hops hrun hstart
  refine ⟨hkept, ?_, ?_⟩
  · rintro ⟨h1, h2⟩
    rcases hkept with h3 | h3
    · have h4 : (c.address .SOURCE).bound = true := h3
      simp [Connection.idleFree, h4] at h1
    · have h4 : (c.address .SINK).bound = true := h3
      simp [Connection.idleFree, h4] at h2
  · rintro ⟨_, h1, h2⟩
    rcases hkept with h3 | h3
    · rw [h3] at h1
      exact Bool.noConfusion h1
    · rw [h3] at h2
      exact Bool.noConfusion h2

/-- Witness of the amended C11: a re-routing run in binary64 arithmetic. The sink
dragged out of port 0 of node 1 is connected to port 1 of node 2, the source end
is taken up with `setDragging(SOURCE)` while the sink is bound, and dropped on
the empty canvas: the source is free, the sink is still bound. -/
theorem run_keeps_a_binding_witness :
    (Connection.construct sampleContext (⟨1⟩, 0) .SINK).runIn Arith.binary64 sampleReroute
        = Outcome.returned sampleRerouted
      ∧ (sampleRerouted._sourceAddress.bound = true ∨ sampleRerouted._sinkAddress.bound = true)
      ∧ ¬ (sampleRerouted.idleFree .SOURCE = true ∧ sampleRerouted.idleFree .SINK = true)
      ∧ ¬ (sampleRerouted._dragging = EndType.NONE
            ∧ sampleRerouted._sourceAddress.bound = false
            ∧ sampleRerouted._sinkAddress.bound = false) :=
  ⟨sampleReroute_run,
    run_keeps_a_binding Arith.binary64 sampleContext (⟨1⟩, 0) .SINK sampleReroute sampleRerouted
      (by decide) (by decide) sampleReroute_keepsBinding sampleReroute_run⟩

/-! ## Subscriptions to the moved signal -/

/-- C15 on the code: a connection is constructed from port 0 of node 1 with the
sink dragged and `connectToNode` binds the sink to port 1 of node 2. The call
returns, the sink binding `(2, 1)` is present, and the `itemMoved` connections
are those made by the constructor: node 1 only, not node 2. -/
theorem connectToNode_adds_no_subscription :
    (Connection.construct sampleContext (⟨1⟩, 0) .SINK).run
        [(sampleContext, Op.connectToNode (⟨2⟩, 1))]
        = Outcome.returned sampleBound
      ∧ sampleBound._sinkAddress = (⟨2⟩, 1)
      ∧ sampleBound._sinkAddress.bound = true
      ∧ sampleBound.itemMoved = [⟨1⟩]
      ∧ (⟨2⟩ : QUuid) ∉ sampleBound.itemMoved := by
  refine ⟨?_, rfl, by decide, rfl, by decide⟩
  simp only [Connection.run, Connection.perform]
  norm_num [Connection.construct, Connection.connectToNode, sampleContext, Context.anchor,
    sampleBound]
  rfl

/-! ## Calls with the end NONE -/

/-- C16 on the code: the constructor given `EndType::NONE` does not fail; it
takes the `default:` branch and yields a connection with both bindings absent,
both endpoints at a default `QPointF()`, `_dragging = NONE` and the `itemMoved`
signal of the origin node connected. -/
theorem construct_none (ctx : Context) (address : Address) :
    Connection.construct ctx address .NONE
        = { _source := QPointF.origin
            _sink := QPointF.origin
            _sourceAddress := Address.default
            _sinkAddress := Address.default
            _dragging := .NONE
            itemMoved := [address.1] }
      ∧ (Connection.construct ctx address .NONE)._sourceAddress.bound = false
      ∧ (Connection.construct ctx address .NONE)._sinkAddress.bound = false
      ∧ (Connection.construct ctx address .NONE).idleFree .SOURCE = true
      ∧ (Connection.construct ctx address .NONE).idleFree .SINK = true :=
  ⟨rfl, rfl, rfl, rfl, rfl⟩

/-- C17, as stated, fails: on the connection bound at both ends,
`setDragging(NONE)` returns, no assertion trips, and the connection is left with
`_dragging = NONE`. -/
theorem setDragging_none_counterexample :
    sampleBound.perform sampleContext (Op.setDragging .NONE)
        = Outcome.returned (sampleBound.setDragging .NONE)
      ∧ sampleBound.perform sampleContext (Op.setDragging .NONE)
        ≠ Outcome.asserted sampleBound
      ∧ (sampleBound.setDragging .NONE)._dragging = EndType.NONE :=
  ⟨rfl, fun h => Outcome.noConfusion h, rfl⟩

/-- C17, amended: `setDragging` has no assertion and returns for every argument.
With the argument `NONE` it sets `_dragging = NONE` and writes nothing else: both
bindings, both positions and the signal connections are as before. -/
theorem setDragging_none (ctx : Context) (c : Connection) :
    (∀ dragging : EndType,
        c.perform ctx (Op.setDragging dragging) = Outcome.returned (c.setDragging dragging))
      ∧ c.setDragging .NONE = { c with _dragging := .NONE }
      ∧ (c.setDragging .NONE)._dragging = EndType.NONE
      ∧ (c.setDragging .NONE)._sourceAddress = c._sourceAddress
      ∧ (c.setDragging .NONE)._sinkAddress = c._sinkAddress
      ∧ (c.setDragging .NONE)._source = c._source
      ∧ (c.setDragging .NONE)._sink = c._sink :=
  ⟨fun _ => rfl, rfl, rfl, rfl, rfl, rfl, rfl⟩

end NodeEditor
